import Mathlib

/-!
Verification development for the character-profiler repository.

The Python module `character_profiler.py` is shallowly embedded here:
JSON-shaped values become the inductive `JValue`, Python dictionaries
become ordered association lists with Python's update semantics
(an assignment to an existing key replaces the value in place, a new key
is appended), and code that can raise becomes functions into
`Except PyError`.  Python's `None` is `JValue.null`; `dict.get(k, d)`
is `pyGetD`; subscripting `d[k]` is `jIndex`; the `in` operator is
`pyContains`.  Keys of Python dictionaries may be arbitrary hashable
values, so association lists here are keyed by `JValue` and every keyed
operation first checks hashability (lists and dicts are unhashable and
make the operation raise `TypeError`, as in Python).

Known modelling simplifications, none of which the theorems below rely
on: JSON numbers are modelled as integers; Python's cross-type numeric
equalities (such as `True == 1`) are not modelled; `repr` of a string
escapes the backslash, the chosen quote and the characters tab, newline
and carriage return, but not other non-printable code points.
-/

inductive JValue where
  | null
  | bool (b : Bool)
  | num (n : Int)
  | str (s : String)
  | arr (xs : List JValue)
  | obj (kvs : List (JValue × JValue))

mutual

def JValue.deq : (a b : JValue) → Decidable (a = b)
  | .null, .null => .isTrue rfl
  | .bool a, .bool b =>
      if h : a = b then .isTrue (congrArg JValue.bool h)
      else .isFalse (fun hh => h (JValue.bool.inj hh))
  | .num a, .num b =>
      if h : a = b then .isTrue (congrArg JValue.num h)
      else .isFalse (fun hh => h (JValue.num.inj hh))
  | .str a, .str b =>
      if h : a = b then .isTrue (congrArg JValue.str h)
      else .isFalse (fun hh => h (JValue.str.inj hh))
  | .arr xs, .arr ys =>
      match JValue.deqList xs ys with
      | .isTrue h => .isTrue (congrArg JValue.arr h)
      | .isFalse h => .isFalse (fun hh => h (JValue.arr.inj hh))
  | .obj xs, .obj ys =>
      match JValue.deqPairs xs ys with
      | .isTrue h => .isTrue (congrArg JValue.obj h)
      | .isFalse h => .isFalse (fun hh => h (JValue.obj.inj hh))
  | .null, .bool _ => .isFalse (fun h => JValue.noConfusion h)
  | .null, .num _ => .isFalse (fun h => JValue.noConfusion h)
  | .null, .str _ => .isFalse (fun h => JValue.noConfusion h)
  | .null, .arr _ => .isFalse (fun h => JValue.noConfusion h)
  | .null, .obj _ => .isFalse (fun h => JValue.noConfusion h)
  | .bool _, .null => .isFalse (fun h => JValue.noConfusion h)
  | .bool _, .num _ => .isFalse (fun h => JValue.noConfusion h)
  | .bool _, .str _ => .isFalse (fun h => JValue.noConfusion h)
  | .bool _, .arr _ => .isFalse (fun h => JValue.noConfusion h)
  | .bool _, .obj _ => .isFalse (fun h => JValue.noConfusion h)
  | .num _, .null => .isFalse (fun h => JValue.noConfusion h)
  | .num _, .bool _ => .isFalse (fun h => JValue.noConfusion h)
  | .num _, .str _ => .isFalse (fun h => JValue.noConfusion h)
  | .num _, .arr _ => .isFalse (fun h => JValue.noConfusion h)
  | .num _, .obj _ => .isFalse (fun h => JValue.noConfusion h)
  | .str _, .null => .isFalse (fun h => JValue.noConfusion h)
  | .str _, .bool _ => .isFalse (fun h => JValue.noConfusion h)
  | .str _, .num _ => .isFalse (fun h => JValue.noConfusion h)
  | .str _, .arr _ => .isFalse (fun h => JValue.noConfusion h)
  | .str _, .obj _ => .isFalse (fun h => JValue.noConfusion h)
  | .arr _, .null => .isFalse (fun h => JValue.noConfusion h)
  | .arr _, .bool _ => .isFalse (fun h => JValue.noConfusion h)
  | .arr _, .num _ => .isFalse (fun h => JValue.noConfusion h)
  | .arr _, .str _ => .isFalse (fun h => JValue.noConfusion h)
  | .arr _, .obj _ => .isFalse (fun h => JValue.noConfusion h)
  | .obj _, .null => .isFalse (fun h => JValue.noConfusion h)
  | .obj _, .bool _ => .isFalse (fun h => JValue.noConfusion h)
  | .obj _, .num _ => .isFalse (fun h => JValue.noConfusion h)
  | .obj _, .str _ => .isFalse (fun h => JValue.noConfusion h)
  | .obj _, .arr _ => .isFalse (fun h => JValue.noConfusion h)

def JValue.deqList : (a b : List JValue) → Decidable (a = b)
  | [], [] => .isTrue rfl
  | [], _ :: _ => .isFalse (fun h => List.noConfusion h)
  | _ :: _, [] => .isFalse (fun h => List.noConfusion h)
  | x :: xs, y :: ys =>
      match JValue.deq x y, JValue.deqList xs ys with
      | .isTrue h1, .isTrue h2 => .isTrue (by rw [h1, h2])
      | .isFalse h1, _ => .isFalse (fun hh => h1 (List.noConfusion hh (fun a _ => a)))
      | _, .isFalse h2 => .isFalse (fun hh => h2 (List.noConfusion hh (fun _ b => b)))

def JValue.deqPairs : (a b : List (JValue × JValue)) → Decidable (a = b)
  | [], [] => .isTrue rfl
  | [], _ :: _ => .isFalse (fun h => List.noConfusion h)
  | _ :: _, [] => .isFalse (fun h => List.noConfusion h)
  | (k, v) :: xs, (k', v') :: ys =>
      match JValue.deq k k', JValue.deq v v', JValue.deqPairs xs ys with
      | .isTrue h1, .isTrue h2, .isTrue h3 => .isTrue (by rw [h1, h2, h3])
      | .isFalse h1, _, _ =>
          .isFalse (fun hh => h1 (congrArg Prod.fst (List.noConfusion hh (fun a _ => a))))
      | _, .isFalse h2, _ =>
          .isFalse (fun hh => h2 (congrArg Prod.snd (List.noConfusion hh (fun a _ => a))))
      | _, _, .isFalse h3 => .isFalse (fun hh => h3 (List.noConfusion hh (fun _ b => b)))

end

instance : DecidableEq JValue := JValue.deq

/-- Python hashability: lists and dicts are unhashable, everything else here
is hashable.  Keyed dictionary operations raise `TypeError` on an unhashable
key. -/
def JValue.hashable : JValue → Bool
  | .arr _ | .obj _ => false
  | _ => true

/-- Python truthiness of the modelled values: `None`, `False`, `0`, the empty
string, the empty list and the empty dict are falsy. -/
def JValue.truthy : JValue → Bool
  | .null => false
  | .bool b => b
  | .num n => n != 0
  | .str s => s ≠ ""
  | .arr xs => xs ≠ []
  | .obj kvs => kvs ≠ []

/-- Errors a modelled Python operation can raise. -/
inductive PyError where
  | keyError (k : JValue)
  | typeError
  | attributeError
  | ioError
deriving DecidableEq

/-- First binding of a key in an association list (Python dicts never hold
duplicate keys, so first and last agree on every dict this code builds). -/
def dictFind? (kvs : List (JValue × JValue)) (k : JValue) : Option JValue :=
  match kvs with
  | [] => none
  | (k', v) :: tl => if k' = k then some v else dictFind? tl k

/-- Python dict assignment `d[k] = v`: an existing key keeps its position and
gets the new value, a new key is appended at the end. -/
def dictSet (kvs : List (JValue × JValue)) (k v : JValue) :
    List (JValue × JValue) :=
  match kvs with
  | [] => [(k, v)]
  | (k', v') :: tl =>
      if k' = k then (k', v) :: tl else (k', v') :: dictSet tl k v

/-- `d.get(k, default)` on a dict value; `AttributeError` on a non-dict
receiver, `TypeError` on an unhashable key. -/
def pyGetD (v : JValue) (k d : JValue) : Except PyError JValue :=
  match v with
  | .obj kvs =>
      if k.hashable then .ok ((dictFind? kvs k).getD d) else .error .typeError
  | _ => .error .attributeError

/-- Subscription `v[k]` with a non-integer key: `KeyError` on a dict missing
the key, `TypeError` on an unhashable key or a non-dict receiver. -/
def jIndex (v : JValue) (k : JValue) : Except PyError JValue :=
  match v with
  | .obj kvs =>
      if k.hashable then
        match dictFind? kvs k with
        | some x => .ok x
        | none => .error (.keyError k)
      else .error .typeError
  | _ => .error .typeError

/-- Iteration `for x in v`: lists yield their elements, dicts their keys,
strings their one-character substrings; other values raise `TypeError`. -/
def pyIter (v : JValue) : Except PyError (List JValue) :=
  match v with
  | .arr xs => .ok xs
  | .obj kvs => .ok (kvs.map (·.1))
  | .str s => .ok (s.toList.map (fun c => .str (String.singleton c)))
  | _ => .error .typeError

/-- Substring test used by `in` on strings. -/
def strContainsSub (s t : String) : Bool :=
  (List.range (s.toList.length + 1)).any
    (fun i => List.isPrefixOf t.toList (s.toList.drop i))

/-- The Python `in` operator `x in v`: membership by equality on lists, key
membership on dicts (hashing the key), substring test on strings. -/
def pyContains (v : JValue) (x : JValue) : Except PyError Bool :=
  match v with
  | .arr xs => .ok (decide (x ∈ xs))
  | .obj kvs =>
      if x.hashable then .ok ((dictFind? kvs x).isSome) else .error .typeError
  | .str s =>
      match x with
      | .str t => .ok (strContainsSub s t)
      | _ => .error .typeError
  | _ => .error .typeError

/-- Dict assignment `d[k] = v` as an operation that checks hashability of the
key, as Python does. -/
def pySetItem (kvs : List (JValue × JValue)) (k v : JValue) :
    Except PyError (List (JValue × JValue)) :=
  if k.hashable then .ok (dictSet kvs k v) else .error .typeError

/-- Left fold in the `Except` monad, modelling a Python `for` loop that
updates an accumulator and may raise. -/
def foldE {α : Type} (f : α → JValue → Except PyError α) :
    α → List JValue → Except PyError α
  | a, [] => .ok a
  | a, x :: xs =>
      match f a x with
      | .ok a' => foldE f a' xs
      | .error e => .error e

def squoteChar : Char := Char.ofNat 39

def dquoteChar : Char := Char.ofNat 34

def backslashChar : Char := Char.ofNat 92

/-- One character of Python `repr` of a string, given the enclosing quote. -/
def pyEscapeChar (q : Char) (c : Char) : String :=
  if c = backslashChar then String.singleton backslashChar ++ String.singleton backslashChar
  else if c = q then String.singleton backslashChar ++ String.singleton q
  else if c = Char.ofNat 10 then String.singleton backslashChar ++ "n"
  else if c = Char.ofNat 13 then String.singleton backslashChar ++ "r"
  else if c = Char.ofNat 9 then String.singleton backslashChar ++ "t"
  else String.singleton c

/-- Python `repr` of a string: single quotes, switching to double quotes when
the text holds a single quote but no double quote. -/
def pyStrRepr (s : String) : String :=
  let q := if s.toList.contains squoteChar && ¬ s.toList.contains dquoteChar
           then dquoteChar else squoteChar
  String.singleton q ++ String.join (s.toList.map (pyEscapeChar q)) ++ String.singleton q

mutual

/-- Python `repr` of a modelled value. -/
def pyRepr : JValue → String
  | .null => "None"
  | .bool true => "True"
  | .bool false => "False"
  | .num n => toString n
  | .str s => pyStrRepr s
  | .arr xs => "[" ++ pyReprList xs ++ "]"
  | .obj kvs => "\x7b" ++ pyReprPairs kvs ++ "\x7d"

def pyReprList : List JValue → String
  | [] => ""
  | [x] => pyRepr x
  | x :: y :: xs => pyRepr x ++ ", " ++ pyReprList (y :: xs)

def pyReprPairs : List (JValue × JValue) → String
  | [] => ""
  | [(k, v)] => pyRepr k ++ ": " ++ pyRepr v
  | (k, v) :: p :: xs => pyRepr k ++ ": " ++ pyRepr v ++ ", " ++ pyReprPairs (p :: xs)

end

/-- Python `str` (the conversion an f-string applies): strings render as
themselves, every other value as its `repr`. -/
def pyStr : JValue → String
  | .str s => s
  | .null => pyRepr .null
  | .bool b => pyRepr (.bool b)
  | .num n => pyRepr (.num n)
  | .arr xs => pyRepr (.arr xs)
  | .obj kvs => pyRepr (.obj kvs)

/-- The flat symbol table `self.symbols`: a Python dict from symbol name to
descriptor record. -/
abbrev SymTable := List (JValue × JValue)

/-- Loop of `_find_section`: scan the sections in order and return the first
whose "name" field equals the target name. -/
def find_section_loop (section_name : String) :
    List JValue → Except PyError (Option JValue)
  | [] => .ok none
  | s :: rest => do
      let n ← pyGetD s (.str "name") .null
      if n = .str section_name then .ok (some s)
      else find_section_loop section_name rest

/-- `_find_section`: scan `self.symbology.get("hasSection", [])` by exact
name match.  A section that matches the non-empty target name is a non-empty
dict, hence truthy, so the caller's `if not framework:` test is exactly a
test for `None` and is modelled by the `Option`. -/
def find_section (symbology : JValue) (section_name : String) :
    Except PyError (Option JValue) := do
  let sections ← pyGetD symbology (.str "hasSection") (.arr [])
  let items ← pyIter sections
  find_section_loop section_name items

/-- Body of the element loop: `symbols[element["name"]] = element`. -/
def processElement (symbols : SymTable) (element : JValue) :
    Except PyError SymTable := do
  let name ← jIndex element (.str "name")
  pySetItem symbols name element

/-- Body of the modality loop:
`symbols[modality["modalityType"]] = modality`. -/
def processModality (symbols : SymTable) (modality : JValue) :
    Except PyError SymTable := do
  let mtype ← jIndex modality (.str "modalityType")
  pySetItem symbols mtype modality

/-- Body of the zodiac loop: `symbols["zodiac"][sign["name"]] = sign`.
Python evaluates `symbols["zodiac"]` before `sign["name"]`; in-place
mutation of the dict stored under "zodiac" is modelled by writing the
updated dict back under the same key (the key keeps its position). -/
def processSign (symbols : SymTable) (sign : JValue) :
    Except PyError SymTable := do
  let zd ← jIndex (.obj symbols) (.str "zodiac")
  let name ← jIndex sign (.str "name")
  match zd with
  | .obj zkvs => do
      let zkvs' ← pySetItem zkvs name sign
      .ok (dictSet symbols (.str "zodiac") (.obj zkvs'))
  | _ => .error .typeError

/-- The `if concept_group.get("@type") == "ElementGroup":` block of the
concept-group loop. -/
def groupElements (symbols : SymTable) (group gtype : JValue) :
    Except PyError SymTable :=
  if gtype = .str "ElementGroup" then do
    let elems ← pyGetD group (.str "hasElement") (.arr [])
    let items ← pyIter elems
    foldE processElement symbols items
  else .ok symbols

/-- The `if concept_group.get("@type") == "ModalityGroup":` block. -/
def groupModalities (symbols : SymTable) (group gtype : JValue) :
    Except PyError SymTable :=
  if gtype = .str "ModalityGroup" then do
    let mods ← pyGetD group (.str "hasModality") (.arr [])
    let items ← pyIter mods
    foldE processModality symbols items
  else .ok symbols

/-- The `if concept_group.get("@type") == "AstrologicalIntegration":`
block. -/
def groupSigns (symbols : SymTable) (group gtype : JValue) :
    Except PyError SymTable :=
  if gtype = .str "AstrologicalIntegration" then do
    let signs ← pyGetD group (.str "hasZodiacSign") (.arr [])
    let items ← pyIter signs
    foldE processSign symbols items
  else .ok symbols

/-- One iteration of the concept-group loop of `_extract_symbols`: the three
`if` tests are independent (not `elif`), each guarding its own inner loop. -/
def processGroup (symbols : SymTable) (group : JValue) :
    Except PyError SymTable := do
  let gtype ← pyGetD group (.str "@type") .null
  let symbols ← groupElements symbols group gtype
  let symbols ← groupModalities symbols group gtype
  let symbols ← groupSigns symbols group gtype
  .ok symbols

/-- The fixed hand-authored entries `_extract_symbols` assigns after the
document-derived ones, in source order. -/
def supplemental_symbols : List (String × JValue) :=
  [("Point", .obj [(.str "name", .str "Point"),
      (.str "description", .str "Existence, Origin, Singularity")]),
   ("Line", .obj [(.str "name", .str "Line"),
      (.str "description", .str "Connection, Continuity, Direction")]),
   ("Angle", .obj [(.str "name", .str "Angle"),
      (.str "description", .str "Intersection, Divergence, Relationship")]),
   ("Curve", .obj [(.str "name", .str "Curve"),
      (.str "description", .str "Change, Fluidity, Transformation")]),
   ("Circle", .obj [(.str "name", .str "Circle"),
      (.str "description", .str "Unity, Wholeness, Cycles")]),
   ("Triangle", .obj [(.str "name", .str "Triangle"),
      (.str "description", .str "Stability, Harmony, Balance")]),
   ("Square", .obj [(.str "name", .str "Square"),
      (.str "description", .str "Structure, Order, Foundation")]),
   ("Spiral", .obj [(.str "name", .str "Spiral"),
      (.str "description", .str "Growth, Evolution, Expansion")]),
   ("Wave", .obj [(.str "name", .str "Wave"),
      (.str "description", .str "Vibration, Energy, Frequency")]),
   ("SwordSymbol", .obj [(.str "name", .str "SwordSymbol"),
      (.str "description", .str "Symbol for a Warrior")]),
   ("StarSymbol", .obj [(.str "name", .str "StarSymbol"),
      (.str "description", .str "Symbol for a Mage or Star")]),
   ("SunSymbol", .obj [(.str "name", .str "SunSymbol"),
      (.str "description", .str "Symbol for Sun")])]

/-- The twelve supplemental assignments at the end of `_extract_symbols`. -/
def addSupplemental (symbols : SymTable) : SymTable :=
  supplemental_symbols.foldl (fun s p => dictSet s (.str p.1) p.2) symbols

/-- `_extract_symbols`: start from `{"zodiac": {}}`; if the framework
section is absent return that table as is (the supplemental assignments are
not reached); otherwise process every concept group and then apply the
supplemental assignments. -/
def extract_symbols (symbology : JValue) : Except PyError SymTable := do
  let symbols : SymTable := [(.str "zodiac", .obj [])]
  match ← find_section symbology "Universal Symbology Framework" with
  | none => .ok symbols
  | some framework => do
      let groups ← pyGetD framework (.str "hasConcept") (.arr [])
      let items ← pyIter groups
      let symbols ← foldE processGroup symbols items
      .ok (addSupplemental symbols)

/-- `self.symbols.get(name, default)` with a string-literal key, as every
such access in the resolvers uses one. -/
def symGetD (symbols : SymTable) (k : String) (d : JValue) : JValue :=
  (dictFind? symbols (.str k)).getD d

/-- `name in self.symbols` with a string key. -/
def symContains (symbols : SymTable) (k : String) : Bool :=
  (dictFind? symbols (.str k)).isSome

/-- The fixed `trait_map` of `_determine_personality_symbols`. -/
def trait_map : List (String × String) :=
  [("Brave", "Triangle"), ("Wise", "Spiral"), ("Mysterious", "Wave"),
   ("Compassionate", "Circle"), ("Leader", "Angle")]

/-- The fixed `role_map` of `_determine_role_symbol`. -/
def role_map : List (String × String) :=
  [("Warrior", "SwordSymbol"), ("Mage", "StarSymbol")]

/-- The fixed `name_map` of `_determine_name_symbol`. -/
def name_map : List (String × String) :=
  [("Star", "StarSymbol"), ("Sun", "SunSymbol")]

/-- Looking up an arbitrary value in a string-keyed Python dict
(`m.get(k)` and `k in m`): the key is hashed first (`TypeError` when
unhashable), then compared against the string keys. -/
def strMapGet? (m : List (String × String)) (k : JValue) :
    Except PyError (Option String) :=
  if k.hashable then
    .ok (match k with
         | .str s => m.lookup s
         | _ => none)
  else .error .typeError

/-- `_determine_core_symbol`. -/
def determine_core_symbol (symbols : SymTable) (character_data : JValue) :
    Except PyError JValue := do
  let traits ← pyGetD character_data (.str "PersonalityTraits") (.arr [])
  let brave ← pyContains traits (.str "Brave")
  if brave then
    pyGetD (symGetD symbols "Triangle" (.obj [])) (.str "name") .null
  else do
    let origin ← pyGetD character_data (.str "Origin") .null
    if origin = .str "Celestial" then
      pyGetD (symGetD symbols "Circle" (.obj [])) (.str "name") .null
    else
      pyGetD (symGetD symbols "Point" (.obj [])) (.str "name") .null

/-- One step of the list comprehension of `_determine_personality_symbols`:
keep `trait_map[trait]` when `trait in trait_map` and
`trait_map[trait] in self.symbols`. -/
def personalityStep (symbols : SymTable) (acc : List JValue) (trait : JValue) :
    Except PyError (List JValue) := do
  let m ← strMapGet? trait_map trait
  match m with
  | some sym => .ok (if symContains symbols sym then acc ++ [.str sym] else acc)
  | none => .ok acc

/-- `_determine_personality_symbols`. -/
def determine_personality_symbols (symbols : SymTable) (character_data : JValue) :
    Except PyError (List JValue) := do
  let traits ← pyGetD character_data (.str "PersonalityTraits") (.arr [])
  let items ← pyIter traits
  foldE (personalityStep symbols) [] items

/-- `_determine_role_symbol`. -/
def determine_role_symbol (symbols : SymTable) (character_data : JValue) :
    Except PyError JValue := do
  let role ← pyGetD character_data (.str "Role") .null
  let m ← strMapGet? role_map role
  let symbol_name := m.getD "UnknownRole"
  pyGetD (symGetD symbols symbol_name (.obj [(.str "name", .str "UnknownRole")]))
    (.str "name") .null

/-- The astrological sub-record of a profile (the dict
`{Sign: _, Element: _, Modality: _}`). -/
structure AstroProfile where
  Sign : JValue
  Element : JValue
  Modality : JValue
deriving DecidableEq

/-- The fixed sentinel record returned for an absent or unknown sign. -/
def unknownAstro : AstroProfile :=
  ⟨.str "Unknown", .str "Unknown", .str "Unknown"⟩

/-- `_determine_astrological_profile`.  Python's `and` short-circuits, so
`self.symbols["zodiac"]` is only evaluated when the sign name is truthy, and
it is evaluated a second time for the `sign_info` lookup. -/
def determine_astrological_profile (symbols : SymTable) (character_data : JValue) :
    Except PyError AstroProfile := do
  let astro_data ← pyGetD character_data (.str "AstrologicalData") (.obj [])
  let sign_name ← pyGetD astro_data (.str "ZodiacSign") .null
  if sign_name.truthy then do
    let zd ← jIndex (.obj symbols) (.str "zodiac")
    let mem ← pyContains zd sign_name
    if mem then do
      let zd2 ← jIndex (.obj symbols) (.str "zodiac")
      let sign_info ← jIndex zd2 sign_name
      let element ← pyGetD sign_info (.str "element") .null
      let modality ← pyGetD sign_info (.str "modality") .null
      .ok ⟨sign_name, element, modality⟩
    else .ok unknownAstro
  else .ok unknownAstro

/-- `_determine_name_symbol`. -/
def determine_name_symbol (symbols : SymTable) (character_data : JValue) :
    Except PyError JValue := do
  let name_data ← pyGetD character_data (.str "NameData") (.obj [])
  let name_meaning ← pyGetD name_data (.str "NameMeaning") .null
  let m ← strMapGet? name_map name_meaning
  let symbol_name := m.getD "DefaultNameSymbol"
  pyGetD (symGetD symbols symbol_name (.obj [(.str "name", .str "DefaultNameSymbol")]))
    (.str "name") .null

/-- The profile record built by `profile_character`. -/
structure Profile where
  Core : JValue
  Personality : List JValue
  Role : JValue
  Astrology : AstroProfile
  Name : JValue
  Symbolic_Representation : String
deriving DecidableEq

/-- The f-string of `profile_character`: every interpolated value is
rendered with Python `str`, the personality list in particular with the
default list rendering. -/
def symbolic_representation (core : JValue) (ps : List JValue) (role : JValue)
    (astro : AstroProfile) (nm : JValue) : String :=
  "Encapsulate(Superimpose(" ++ pyStr core ++ ", " ++ pyStr (.arr ps) ++ "), " ++
    pyStr role ++ ") AdjacentTo(" ++ pyStr astro.Element ++ ", " ++
    pyStr astro.Modality ++ ") Enclose(" ++ pyStr nm ++ ")"

/-- `profile_character`. -/
def profile_character (symbols : SymTable) (character_data : JValue) :
    Except PyError Profile := do
  let core_symbol ← determine_core_symbol symbols character_data
  let personality_symbols ← determine_personality_symbols symbols character_data
  let role_symbol ← determine_role_symbol symbols character_data
  let astrological_profile ← determine_astrological_profile symbols character_data
  let name_symbol ← determine_name_symbol symbols character_data
  .ok { Core := core_symbol, Personality := personality_symbols,
        Role := role_symbol, Astrology := astrological_profile,
        Name := name_symbol,
        Symbolic_Representation :=
          symbolic_representation core_symbol personality_symbols role_symbol
            astrological_profile name_symbol }

/-- Lookup in a cache dict keyed by the document identifier. -/
def cacheFind? {β : Type} (c : List (String × β)) (k : String) : Option β :=
  match c with
  | [] => none
  | (k', v) :: tl => if k' = k then some v else cacheFind? tl k

/-- The two class-level caches of `CharacterProfiler`, threaded explicitly. -/
structure LoaderState where
  symbology_cache : List (String × JValue)
  symbols_cache : List (String × SymTable)
deriving DecidableEq

/-- What one `CharacterProfiler.__init__` call produces: the instance fields
`symbology` and `symbols`, the updated caches, and logs of which identifiers
were read from the file system and which symbol tables were derived. -/
structure LoadOutcome where
  symbology : JValue
  symbols : SymTable
  state : LoaderState
  reads : List String
  derived : List String
deriving DecidableEq

/-- First stage of `__init__`: populate the symbology cache on a miss,
recording whether the file system was read. -/
def loadStage (fs : String → Option JValue) (symbology_file : String)
    (st : LoaderState) : Except PyError (LoaderState × List String) :=
  if (cacheFind? st.symbology_cache symbology_file).isSome then
    .ok (st, [])
  else
    match fs symbology_file with
    | some doc =>
        .ok ({ st with symbology_cache :=
                 st.symbology_cache ++ [(symbology_file, doc)] },
             [symbology_file])
    | none => .error .ioError

/-- Second stage of `__init__`: populate the symbols cache on a miss,
recording whether a symbol table was derived. -/
def deriveStage (symbology_file : String) (symbology : JValue)
    (st : LoaderState) : Except PyError (LoaderState × List String) :=
  if (cacheFind? st.symbols_cache symbology_file).isSome then
    .ok (st, [])
  else do
    let tbl ← extract_symbols symbology
    .ok ({ st with symbols_cache :=
             st.symbols_cache ++ [(symbology_file, tbl)] },
         [symbology_file])

/-- `CharacterProfiler.__init__`.  The file system is abstracted as a partial
map from path to parsed document; `none` models a missing or malformed file,
whose `open`/`json.load` failure surfaces as an error. -/
def profiler_init (fs : String → Option JValue) (symbology_file : String)
    (st : LoaderState) : Except PyError LoadOutcome := do
  let (st, reads) ← loadStage fs symbology_file st
  let symbology ←
    match cacheFind? st.symbology_cache symbology_file with
    | some d => Except.ok d
    | none => .error (.keyError (.str symbology_file))
  let (st, derived) ← deriveStage symbology_file symbology st
  let symbols ←
    match cacheFind? st.symbols_cache symbology_file with
    | some t => Except.ok t
    | none => .error (.keyError (.str symbology_file))
  .ok ⟨symbology, symbols, st, reads, derived⟩

/-- `true` exactly when the computation returned normally. -/
def isOkE {α : Type} : Except PyError α → Bool
  | .ok _ => true
  | .error _ => false

/-- `true` exactly when the computation raised a `KeyError`. -/
def isKeyError {α : Type} : Except PyError α → Bool
  | .error (.keyError _) => true
  | _ => false

/-- Invariant of every symbol table `_extract_symbols` returns: the "zodiac"
key is present and every stored value is a dict. -/
def TableInv (t : SymTable) : Prop :=
  (dictFind? t (.str "zodiac")).isSome = true ∧ ∀ p ∈ t, ∃ o, p.2 = .obj o

/-- What one trait contributes, as the spec words it: its image under the
fixed trait map when the trait is in the map and the mapped symbol name is a
key of the table, nothing otherwise. -/
def traitImage (symbols : SymTable) (trait : JValue) : Option JValue :=
  match trait with
  | .str s =>
      match trait_map.lookup s with
      | some sym => if symContains symbols sym then some (.str sym) else none
      | none => none
  | _ => none

/-- The personality rule as the spec words it: apply the fixed trait map to
each trait in input order and keep exactly those traits in the map whose
mapped symbol name is a key of the table. -/
def personality_symbols_spec (symbols : SymTable) (l : List JValue) :
    List JValue :=
  l.filterMap (traitImage symbols)

/-- Register a run of zodiac signs into a sign map, per the spec's "register
each zodiac sign under the nested zodiac key by sign name". -/
def registerSigns (z : List (JValue × JValue)) :
    List JValue → Except PyError (List (JValue × JValue))
  | [] => .ok z
  | sign :: rest => do
      let name ← jIndex sign (.str "name")
      let z' ← pySetItem z name sign
      registerSigns z' rest

/-- The signs one concept group registers, given the signs registered so
far. -/
def group_signs (z : List (JValue × JValue)) (group : JValue) :
    Except PyError (List (JValue × JValue)) := do
  let gtype ← pyGetD group (.str "@type") .null
  if gtype = .str "AstrologicalIntegration" then do
    let signs ← pyGetD group (.str "hasZodiacSign") (.arr [])
    let items ← pyIter signs
    registerSigns z items
  else .ok z

def groups_signs (z : List (JValue × JValue)) :
    List JValue → Except PyError (List (JValue × JValue))
  | [] => .ok z
  | g :: gs => do
      let z' ← group_signs z g
      groups_signs z' gs

/-- The zodiac sub-mapping the spec describes: exactly the signs registered
from the `AstrologicalIntegration` concept groups of the framework section,
in document order. -/
def registeredZodiac (symbology : JValue) :
    Except PyError (List (JValue × JValue)) := do
  match ← find_section symbology "Universal Symbology Framework" with
  | none => .ok []
  | some framework => do
      let groups ← pyGetD framework (.str "hasConcept") (.arr [])
      let items ← pyIter groups
      groups_signs [] items

/-- The field values a run of entries would be registered under. -/
def collectKeys (field : String) : List JValue → Except PyError (List JValue)
  | [] => .ok []
  | e :: rest => do
      let n ← jIndex e (.str field)
      let ns ← collectKeys field rest
      .ok (n :: ns)

/-- The keys an `ElementGroup` registers its elements under. -/
def groupElementKeys (group gtype : JValue) : Except PyError (List JValue) :=
  if gtype = .str "ElementGroup" then do
    let elems ← pyGetD group (.str "hasElement") (.arr [])
    let items ← pyIter elems
    collectKeys "name" items
  else .ok []

/-- The keys a `ModalityGroup` registers its modalities under. -/
def groupModalityKeys (group gtype : JValue) : Except PyError (List JValue) :=
  if gtype = .str "ModalityGroup" then do
    let mods ← pyGetD group (.str "hasModality") (.arr [])
    let items ← pyIter mods
    collectKeys "modalityType" items
  else .ok []

/-- The top-level keys one concept group registers element or modality
entries under. -/
def group_em_keys (group : JValue) : Except PyError (List JValue) := do
  let gtype ← pyGetD group (.str "@type") .null
  let ks1 ← groupElementKeys group gtype
  let ks2 ← groupModalityKeys group gtype
  .ok (ks1 ++ ks2)

def groups_em_keys : List JValue → Except PyError (List JValue)
  | [] => .ok []
  | g :: gs => do
      let a ← group_em_keys g
      let b ← groups_em_keys gs
      .ok (a ++ b)

/-- Every key under which the framework section's concept groups register an
element or a modality at the top level of the symbol table. -/
def element_modality_keys (symbology : JValue) :
    Except PyError (List JValue) := do
  match ← find_section symbology "Universal Symbology Framework" with
  | none => .ok []
  | some framework => do
      let groups ← pyGetD framework (.str "hasConcept") (.arr [])
      let items ← pyIter groups
      groups_em_keys items

/-- One entry of an element, modality or sign list is structurally valid
when it is a record whose registration field, when present, is a string. -/
def WFEntry (field : String) (e : JValue) : Bool :=
  match e with
  | .obj kvs =>
      match dictFind? kvs (.str field) with
      | some (.str _) => true
      | some _ => false
      | none => true
  | _ => false

/-- A present entry list is structurally valid when it is a list of valid
entries. -/
def WFEntryList (owner : List (JValue × JValue)) (listField field : String) :
    Bool :=
  match dictFind? owner (.str listField) with
  | none => true
  | some (.arr es) => es.all (WFEntry field)
  | some _ => false

/-- A structurally valid concept group: a record whose three entry lists,
when present, are lists of valid entries. -/
def WFGroup (g : JValue) : Bool :=
  match g with
  | .obj kvs =>
      WFEntryList kvs "hasElement" "name" &&
      WFEntryList kvs "hasModality" "modalityType" &&
      WFEntryList kvs "hasZodiacSign" "name"
  | _ => false

/-- A structurally valid parsed document: `hasSection`, when present, is a
list of records, and every section's `hasConcept` list, when present, is a
list of structurally valid concept groups. -/
def WFDoc (symbology : JValue) : Bool :=
  match symbology with
  | .obj kvs =>
      match dictFind? kvs (.str "hasSection") with
      | none => true
      | some (.arr sections) =>
          sections.all (fun s =>
            match s with
            | .obj skvs =>
                match dictFind? skvs (.str "hasConcept") with
                | none => true
                | some (.arr gs) => gs.all WFGroup
                | some _ => false
            | _ => false)
      | some _ => false
  | _ => false

/-- An entry record lacking its registration field. -/
def entryMissing (field : String) (e : JValue) : Bool :=
  match e with
  | .obj ekvs => (dictFind? ekvs (.str field)).isNone
  | _ => false

/-- Does a list field of the group hold an entry lacking its registration
field? -/
def entryLacks (kvs : List (JValue × JValue)) (listField field : String) :
    Bool :=
  match dictFind? kvs (.str listField) with
  | some (.arr es) => es.any (entryMissing field)
  | _ => false

/-- The offending shapes named by the claim: an `ElementGroup` entry lacking
"name", a `ModalityGroup` entry lacking "modalityType", or an
`AstrologicalIntegration` sign entry lacking "name". -/
def groupOffends (g : JValue) : Bool :=
  match g with
  | .obj kvs =>
      (decide ((dictFind? kvs (.str "@type")).getD .null = .str "ElementGroup") &&
        entryLacks kvs "hasElement" "name") ||
      (decide ((dictFind? kvs (.str "@type")).getD .null = .str "ModalityGroup") &&
        entryLacks kvs "hasModality" "modalityType") ||
      (decide ((dictFind? kvs (.str "@type")).getD .null = .str "AstrologicalIntegration") &&
        entryLacks kvs "hasZodiacSign" "name")
  | _ => false

/-- Some concept group of the framework section the loader would use
offends. -/
def docOffends (symbology : JValue) : Bool :=
  match find_section symbology "Universal Symbology Framework" with
  | .ok (some (.obj fkvs)) =>
      match dictFind? fkvs (.str "hasConcept") with
      | some (.arr gs) => gs.any groupOffends
      | _ => false
  | _ => false

/-- A reference document shaped like the repository's own example: one
framework section with one `AstrologicalIntegration` group defining Aries
as Fire/Cardinal. -/
def sampleDoc : JValue :=
  .obj [(.str "hasSection", .arr [
    .obj [(.str "name", .str "Universal Symbology Framework"),
          (.str "hasConcept", .arr [
      .obj [(.str "@type", .str "AstrologicalIntegration"),
            (.str "hasZodiacSign", .arr [
        .obj [(.str "name", .str "Aries"), (.str "element", .str "Fire"),
              (.str "modality", .str "Cardinal")]])]])]])]

/-- The framework section of `sampleDoc`, as `_find_section` returns it. -/
def sampleFramework : JValue :=
  .obj [(.str "name", .str "Universal Symbology Framework"),
        (.str "hasConcept", .arr [
    .obj [(.str "@type", .str "AstrologicalIntegration"),
          (.str "hasZodiacSign", .arr [
      .obj [(.str "name", .str "Aries"), (.str "element", .str "Fire"),
            (.str "modality", .str "Cardinal")]])]])]

/-- The character of the module's own `__main__` example. -/
def sampleCharacter : JValue :=
  .obj [(.str "Name", .str "Astra"),
        (.str "Origin", .str "Celestial"),
        (.str "Role", .str "Mage"),
        (.str "PersonalityTraits",
          .arr [.str "Brave", .str "Wise", .str "Mysterious"]),
        (.str "AstrologicalData", .obj [(.str "ZodiacSign", .str "Aries")]),
        (.str "NameData", .obj [(.str "NameMeaning", .str "Star")])]

/-- The symbol table `_extract_symbols` derives from `sampleDoc`. -/
def sampleTable : SymTable :=
  (.str "zodiac", .obj [(.str "Aries",
    .obj [(.str "name", .str "Aries"), (.str "element", .str "Fire"),
          (.str "modality", .str "Cardinal")])]) ::
  supplemental_symbols.map (fun p => (.str p.1, p.2))

/-- A document whose framework section registers an element named
"zodiac", overwriting the nested sign map at the top level. -/
def advDoc : JValue :=
  .obj [(.str "hasSection", .arr [
    .obj [(.str "name", .str "Universal Symbology Framework"),
          (.str "hasConcept", .arr [
      .obj [(.str "@type", .str "ElementGroup"),
            (.str "hasElement", .arr [.obj [(.str "name", .str "zodiac")]])]])]])]

/-- The symbol table `_extract_symbols` derives from `advDoc`: the value
under "zodiac" is the element record, not a sign map. -/
def advTable : SymTable :=
  (.str "zodiac", .obj [(.str "name", .str "zodiac")]) ::
  supplemental_symbols.map (fun p => (.str p.1, p.2))

/-- A well-shaped character whose zodiac sign name happens to be "name", a
key of `advTable`'s "zodiac" record. -/
def advCharacter : JValue :=
  .obj [(.str "AstrologicalData", .obj [(.str "ZodiacSign", .str "name")])]

/-- A structurally valid document whose framework section holds an
`ElementGroup` with one element record lacking the "name" field. -/
def offDoc : JValue :=
  .obj [(.str "hasSection", .arr [
    .obj [(.str "name", .str "Universal Symbology Framework"),
          (.str "hasConcept", .arr [
      .obj [(.str "@type", .str "ElementGroup"),
            (.str "hasElement", .arr [.obj []])]])]])]

/-- The profile the resolvers produce for `sampleCharacter` against
`sampleTable`, its composite string spelled out. -/
def sampleProfile : Profile :=
  { Core := .str "Triangle",
    Personality := [.str "Triangle", .str "Spiral", .str "Wave"],
    Role := .str "StarSymbol",
    Astrology := ⟨.str "Aries", .str "Fire", .str "Cardinal"⟩,
    Name := .str "StarSymbol",
    Symbolic_Representation :=
      "Encapsulate(Superimpose(Triangle, ['Triangle', 'Spiral', 'Wave']), StarSymbol) AdjacentTo(Fire, Cardinal) Enclose(StarSymbol)" }

/-- A one-file file system for exercising the loader. -/
def fs0 : String → Option JValue :=
  fun f => if f = "symbology.jsonld" then some sampleDoc else none

/-- The caches and outcome of a first `profiler_init` call on `fs0` starting
from empty caches. -/
def firstOutcome : LoadOutcome :=
  { symbology := sampleDoc,
    symbols := sampleTable,
    state := { symbology_cache := [("symbology.jsonld", sampleDoc)],
               symbols_cache := [("symbology.jsonld", sampleTable)] },
    reads := ["symbology.jsonld"],
    derived := ["symbology.jsonld"] }

theorem exbind_ok {α β : Type} (a : α) (f : α → Except PyError β) :
    (Except.ok a >>= f) = f a := rfl

theorem exbind_error {α β : Type} (e : PyError) (f : α → Except PyError β) :
    ((Except.error e : Except PyError α) >>= f) = .error e := rfl

theorem dictFind?_dictSet (d : List (JValue × JValue)) (k v k' : JValue) :
    dictFind? (dictSet d k v) k' = if k = k' then some v else dictFind? d k' := by
  induction d with
  | nil => simp [dictSet, dictFind?]
  | cons q tl ih =>
      obtain ⟨pk, pv⟩ := q
      by_cases h1 : pk = k
      · subst h1
        by_cases h2 : pk = k' <;> simp [dictSet, dictFind?, h2]
      · by_cases h2 : pk = k'
        · subst h2
          have h3 : ¬ (k = pk) := fun h => h1 h.symm
          simp [dictSet, dictFind?, h1, h3]
        · simp [dictSet, dictFind?, h1, h2, ih]

theorem dictFind?_mem {d : List (JValue × JValue)} {k v : JValue}
    (h : dictFind? d k = some v) : (k, v) ∈ d := by
  induction d with
  | nil => simp [dictFind?] at h
  | cons p tl ih =>
      obtain ⟨pk, pv⟩ := p
      by_cases h1 : pk = k
      · subst h1
        simp [dictFind?] at h
        simp [h]
      · simp [dictFind?, h1] at h
        exact List.mem_cons_of_mem _ (ih h)

theorem dictSet_vals {d : List (JValue × JValue)} {k v : JValue} :
    ∀ p ∈ dictSet d k v, p.2 = v ∨ p ∈ d := by
  induction d with
  | nil => simp [dictSet]
  | cons q tl ih =>
      obtain ⟨qk, qv⟩ := q
      by_cases h1 : qk = k
      · subst h1
        intro p hp
        simp [dictSet] at hp
        rcases hp with h | h
        · subst h; left; rfl
        · right; exact List.mem_cons_of_mem _ h
      · intro p hp
        simp [dictSet, h1] at hp
        rcases hp with h | h
        · subst h; right; simp
        · rcases ih p h with h2 | h2
          · left; exact h2
          · right; exact List.mem_cons_of_mem _ h2

theorem TableInv_dictSet {t : SymTable} {k v : JValue}
    (h : TableInv t) (hv : ∃ o, v = .obj o) : TableInv (dictSet t k v) := by
  obtain ⟨hz, hvals⟩ := h
  constructor
  · rw [dictFind?_dictSet]
    by_cases hk : k = .str "zodiac" <;> simp [hk, hz]
  · intro p hp
    rcases dictSet_vals p hp with h2 | h2
    · rw [h2]; exact hv
    · exact hvals p h2

theorem supp_lookups (s : SymTable) :
    dictFind? (addSupplemental s) (.str "Point") =
      some (.obj [(.str "name", .str "Point"),
        (.str "description", .str "Existence, Origin, Singularity")]) ∧
    dictFind? (addSupplemental s) (.str "Line") =
      some (.obj [(.str "name", .str "Line"),
        (.str "description", .str "Connection, Continuity, Direction")]) ∧
    dictFind? (addSupplemental s) (.str "Angle") =
      some (.obj [(.str "name", .str "Angle"),
        (.str "description", .str "Intersection, Divergence, Relationship")]) ∧
    dictFind? (addSupplemental s) (.str "Curve") =
      some (.obj [(.str "name", .str "Curve"),
        (.str "description", .str "Change, Fluidity, Transformation")]) ∧
    dictFind? (addSupplemental s) (.str "Circle") =
      some (.obj [(.str "name", .str "Circle"),
        (.str "description", .str "Unity, Wholeness, Cycles")]) ∧
    dictFind? (addSupplemental s) (.str "Triangle") =
      some (.obj [(.str "name", .str "Triangle"),
        (.str "description", .str "Stability, Harmony, Balance")]) ∧
    dictFind? (addSupplemental s) (.str "Square") =
      some (.obj [(.str "name", .str "Square"),
        (.str "description", .str "Structure, Order, Foundation")]) ∧
    dictFind? (addSupplemental s) (.str "Spiral") =
      some (.obj [(.str "name", .str "Spiral"),
        (.str "description", .str "Growth, Evolution, Expansion")]) ∧
    dictFind? (addSupplemental s) (.str "Wave") =
      some (.obj [(.str "name", .str "Wave"),
        (.str "description", .str "Vibration, Energy, Frequency")]) ∧
    dictFind? (addSupplemental s) (.str "SwordSymbol") =
      some (.obj [(.str "name", .str "SwordSymbol"),
        (.str "description", .str "Symbol for a Warrior")]) ∧
    dictFind? (addSupplemental s) (.str "StarSymbol") =
      some (.obj [(.str "name", .str "StarSymbol"),
        (.str "description", .str "Symbol for a Mage or Star")]) ∧
    dictFind? (addSupplemental s) (.str "SunSymbol") =
      some (.obj [(.str "name", .str "SunSymbol"),
        (.str "description", .str "Symbol for Sun")]) := by
  refine ⟨?_, ?_, ?_, ?_, ?_, ?_, ?_, ?_, ?_, ?_, ?_, ?_⟩ <;>
    simp [addSupplemental, supplemental_symbols, dictFind?_dictSet]

theorem addSupplemental_zodiac (s : SymTable) :
    dictFind? (addSupplemental s) (.str "zodiac") = dictFind? s (.str "zodiac") := by
  simp [addSupplemental, supplemental_symbols, dictFind?_dictSet]

theorem jIndex_ok_obj {v k x : JValue} (h : jIndex v k = .ok x) :
    ∃ kvs, v = .obj kvs := by
  cases v with
  | obj kvs => exact ⟨kvs, rfl⟩
  | null => simp [jIndex] at h
  | bool b => simp [jIndex] at h
  | num n => simp [jIndex] at h
  | str s => simp [jIndex] at h
  | arr xs => simp [jIndex] at h

theorem pyGetD_ok_obj {v k d x : JValue} (h : pyGetD v k d = .ok x) :
    ∃ kvs, v = .obj kvs := by
  cases v with
  | obj kvs => exact ⟨kvs, rfl⟩
  | null => simp [pyGetD] at h
  | bool b => simp [pyGetD] at h
  | num n => simp [pyGetD] at h
  | str s => simp [pyGetD] at h
  | arr xs => simp [pyGetD] at h

theorem processElement_inv {t t' : SymTable} {e : JValue}
    (h : processElement t e = .ok t') (ht : TableInv t) : TableInv t' := by
  unfold processElement at h
  cases hn : jIndex e (.str "name") with
  | error er => rw [hn, exbind_error] at h; exact absurd h (by simp)
  | ok name =>
      rw [hn, exbind_ok] at h
      obtain ⟨kvs, rfl⟩ := jIndex_ok_obj hn
      unfold pySetItem at h
      split at h
      · cases Except.ok.inj h
        exact TableInv_dictSet ht ⟨kvs, rfl⟩
      · exact absurd h (by simp)

theorem processModality_inv {t t' : SymTable} {m : JValue}
    (h : processModality t m = .ok t') (ht : TableInv t) : TableInv t' := by
  unfold processModality at h
  cases hn : jIndex m (.str "modalityType") with
  | error er => rw [hn, exbind_error] at h; exact absurd h (by simp)
  | ok mtype =>
      rw [hn, exbind_ok] at h
      obtain ⟨kvs, rfl⟩ := jIndex_ok_obj hn
      unfold pySetItem at h
      split at h
      · cases Except.ok.inj h
        exact TableInv_dictSet ht ⟨kvs, rfl⟩
      · exact absurd h (by simp)

theorem processSign_inv {t t' : SymTable} {sg : JValue}
    (h : processSign t sg = .ok t') (ht : TableInv t) : TableInv t' := by
  unfold processSign at h
  cases hz : jIndex (.obj t) (.str "zodiac") with
  | error er => rw [hz, exbind_error] at h; exact absurd h (by simp)
  | ok zd =>
      rw [hz, exbind_ok] at h
      cases hn : jIndex sg (.str "name") with
      | error er => rw [hn, exbind_error] at h; exact absurd h (by simp)
      | ok name =>
          rw [hn, exbind_ok] at h
          cases zd with
          | obj zkvs =>
              simp only at h
              unfold pySetItem at h
              split at h
              · rw [exbind_ok] at h
                cases Except.ok.inj h
                exact TableInv_dictSet ht ⟨_, rfl⟩
              · rw [exbind_error] at h; exact absurd h (by simp)
          | null => exact absurd h (by simp)
          | bool b => exact absurd h (by simp)
          | num n => exact absurd h (by simp)
          | str s => exact absurd h (by simp)
          | arr xs => exact absurd h (by simp)

theorem foldE_inv {α : Type} {P : α → Prop} {f : α → JValue → Except PyError α}
    (hstep : ∀ a x a', f a x = .ok a' → P a → P a') :
    ∀ l a a', foldE f a l = .ok a' → P a → P a'
  | [], a, a', h, hp => by
      simp [foldE] at h
      rwa [← h]
  | x :: xs, a, a', h, hp => by
      unfold foldE at h
      cases hfx : f a x with
      | error e => rw [hfx] at h; simp at h
      | ok a1 =>
          rw [hfx] at h
          simp only at h
          exact foldE_inv hstep xs a1 a' h (hstep a x a1 hfx hp)

theorem groupElements_inv {t t' : SymTable} {g gtype : JValue}
    (h : groupElements t g gtype = .ok t') (ht : TableInv t) : TableInv t' := by
  unfold groupElements at h
  split at h
  · cases he : pyGetD g (.str "hasElement") (.arr []) with
    | error er => rw [he, exbind_error] at h; exact absurd h (by simp)
    | ok elems =>
        rw [he, exbind_ok] at h
        cases hi : pyIter elems with
        | error er => rw [hi, exbind_error] at h; exact absurd h (by simp)
        | ok items =>
            rw [hi, exbind_ok] at h
            exact foldE_inv (fun a x a' hh hp => processElement_inv hh hp)
              items t t' h ht
  · cases Except.ok.inj h; exact ht

theorem groupModalities_inv {t t' : SymTable} {g gtype : JValue}
    (h : groupModalities t g gtype = .ok t') (ht : TableInv t) : TableInv t' := by
  unfold groupModalities at h
  split at h
  · cases he : pyGetD g (.str "hasModality") (.arr []) with
    | error er => rw [he, exbind_error] at h; exact absurd h (by simp)
    | ok mods =>
        rw [he, exbind_ok] at h
        cases hi : pyIter mods with
        | error er => rw [hi, exbind_error] at h; exact absurd h (by simp)
        | ok items =>
            rw [hi, exbind_ok] at h
            exact foldE_inv (fun a x a' hh hp => processModality_inv hh hp)
              items t t' h ht
  · cases Except.ok.inj h; exact ht

theorem groupSigns_inv {t t' : SymTable} {g gtype : JValue}
    (h : groupSigns t g gtype = .ok t') (ht : TableInv t) : TableInv t' := by
  unfold groupSigns at h
  split at h
  · cases he : pyGetD g (.str "hasZodiacSign") (.arr []) with
    | error er => rw [he, exbind_error] at h; exact absurd h (by simp)
    | ok signs =>
        rw [he, exbind_ok] at h
        cases hi : pyIter signs with
        | error er => rw [hi, exbind_error] at h; exact absurd h (by simp)
        | ok items =>
            rw [hi, exbind_ok] at h
            exact foldE_inv (fun a x a' hh hp => processSign_inv hh hp)
              items t t' h ht
  · cases Except.ok.inj h; exact ht

theorem processGroup_inv {t t' : SymTable} {g : JValue}
    (h : processGroup t g = .ok t') (ht : TableInv t) : TableInv t' := by
  unfold processGroup at h
  cases hty : pyGetD g (.str "@type") .null with
  | error er => rw [hty, exbind_error] at h; exact absurd h (by simp)
  | ok gtype =>
      rw [hty, exbind_ok] at h
      cases h1 : groupElements t g gtype with
      | error er => rw [h1, exbind_error] at h; exact absurd h (by simp)
      | ok t1 =>
          rw [h1, exbind_ok] at h
          cases h2 : groupModalities t1 g gtype with
          | error er => rw [h2, exbind_error] at h; exact absurd h (by simp)
          | ok t2 =>
              rw [h2, exbind_ok] at h
              cases h3 : groupSigns t2 g gtype with
              | error er => rw [h3, exbind_error] at h; exact absurd h (by simp)
              | ok t3 =>
                  rw [h3, exbind_ok] at h
                  cases Except.ok.inj h
                  exact groupSigns_inv h3 (groupModalities_inv h2 (groupElements_inv h1 ht))

theorem addSupplemental_inv {s : SymTable} (h : TableInv s) :
    TableInv (addSupplemental s) := by
  simp only [addSupplemental, supplemental_symbols, List.foldl]
  repeat
    first
    | exact h
    | refine TableInv_dictSet ?_ ⟨_, rfl⟩

theorem init_inv : TableInv [(.str "zodiac", .obj [])] := by
  constructor
  · simp [dictFind?]
  · intro p hp
    simp at hp
    rw [hp]
    exact ⟨[], rfl⟩

theorem extract_ok_inv {doc : JValue} {t : SymTable}
    (h : extract_symbols doc = .ok t) : TableInv t := by
  unfold extract_symbols at h
  cases hfs : find_section doc "Universal Symbology Framework" with
  | error er => rw [hfs, exbind_error] at h; exact absurd h (by simp)
  | ok ofw =>
      rw [hfs, exbind_ok] at h
      cases ofw with
      | none =>
          simp only at h
          cases Except.ok.inj h
          exact init_inv
      | some fw =>
          simp only at h
          cases hgr : pyGetD fw (.str "hasConcept") (.arr []) with
          | error er => rw [hgr, exbind_error] at h; exact absurd h (by simp)
          | ok groups =>
              rw [hgr, exbind_ok] at h
              cases hit : pyIter groups with
              | error er => rw [hit, exbind_error] at h; exact absurd h (by simp)
              | ok items =>
                  rw [hit, exbind_ok] at h
                  cases hf : foldE processGroup [(.str "zodiac", .obj [])] items with
                  | error er => rw [hf, exbind_error] at h; exact absurd h (by simp)
                  | ok s =>
                      rw [hf, exbind_ok] at h
                      cases Except.ok.inj h
                      exact addSupplemental_inv
                        (foldE_inv (fun a x a' hh hp => processGroup_inv hh hp)
                          items _ _ hf init_inv)

theorem extract_ok_shape {doc fw : JValue} {t : SymTable}
    (hfw : find_section doc "Universal Symbology Framework" = .ok (some fw))
    (hok : extract_symbols doc = .ok t) :
    ∃ s, t = addSupplemental s := by
  unfold extract_symbols at hok
  rw [hfw, exbind_ok] at hok
  simp only at hok
  cases hgr : pyGetD fw (.str "hasConcept") (.arr []) with
  | error e => rw [hgr, exbind_error] at hok; exact absurd hok (by simp)
  | ok groups =>
      rw [hgr, exbind_ok] at hok
      cases hit : pyIter groups with
      | error e => rw [hit, exbind_error] at hok; exact absurd hok (by simp)
      | ok items =>
          rw [hit, exbind_ok] at hok
          cases hf : foldE processGroup [(.str "zodiac", .obj [])] items with
          | error e => rw [hf, exbind_error] at hok; exact absurd hok (by simp)
          | ok s =>
              rw [hf, exbind_ok] at hok
              exact ⟨s, (Except.ok.inj hok).symm⟩

/-- C1: against a table the loader derives from a document containing the
framework section, the core-symbol resolver returns "Triangle" whenever
"Brave" is in the trait list regardless of Origin, "Circle" when "Brave" is
absent and Origin equals "Celestial", and "Point" otherwise, the checks in
that priority order.  (Amended from the claim: the document must contain the
framework section — without it the supplemental entries are never added and
the resolver returns None instead of the symbol names.) -/
theorem claim_C1 (doc fw : JValue) (t : SymTable) (cd : JValue) (l : List JValue)
    (hfw : find_section doc "Universal Symbology Framework" = .ok (some fw))
    (hok : extract_symbols doc = .ok t)
    (htr : pyGetD cd (.str "PersonalityTraits") (.arr []) = .ok (.arr l)) :
    ((.str "Brave") ∈ l → determine_core_symbol t cd = .ok (.str "Triangle")) ∧
    ((.str "Brave") ∉ l →
      pyGetD cd (.str "Origin") .null = .ok (.str "Celestial") →
      determine_core_symbol t cd = .ok (.str "Circle")) ∧
    (∀ o, (.str "Brave") ∉ l → pyGetD cd (.str "Origin") .null = .ok o →
      o ≠ .str "Celestial" → determine_core_symbol t cd = .ok (.str "Point")) := by
  obtain ⟨s, rfl⟩ := extract_ok_shape hfw hok
  have hs := supp_lookups s
  refine ⟨?_, ?_, ?_⟩
  · intro hb
    unfold determine_core_symbol
    rw [htr, exbind_ok]
    simp only [pyContains, exbind_ok, hb, decide_eq_true_eq]
    simp [symGetD, hs.2.2.2.2.2.1, pyGetD, JValue.hashable, dictFind?]
  · intro hb ho
    unfold determine_core_symbol
    rw [htr, exbind_ok]
    simp only [pyContains, exbind_ok, hb, decide_eq_true_eq]
    rw [ho, exbind_ok]
    simp [symGetD, hs.2.2.2.2.1, pyGetD, JValue.hashable, dictFind?]
  · intro o hb ho hne
    unfold determine_core_symbol
    rw [htr, exbind_ok]
    simp only [pyContains, exbind_ok, hb, decide_eq_true_eq]
    rw [ho, exbind_ok]
    rw [if_neg hne]
    simp [symGetD, hs.1, pyGetD, JValue.hashable, dictFind?]

theorem claim_C1_cex :
    extract_symbols (.obj []) = .ok [(.str "zodiac", .obj [])] ∧
    determine_core_symbol [(.str "zodiac", .obj [])]
      (.obj [(.str "PersonalityTraits", .arr [.str "Brave"])]) = .ok .null ∧
    (JValue.null ≠ .str "Triangle") :=
  ⟨rfl, rfl, by decide⟩

theorem claim_C1_witness :
    extract_symbols sampleDoc = .ok sampleTable ∧
    find_section sampleDoc "Universal Symbology Framework" = .ok (some sampleFramework) ∧
    determine_core_symbol sampleTable sampleCharacter = .ok (.str "Triangle") :=
  ⟨rfl, rfl,
    (claim_C1 sampleDoc sampleFramework sampleTable sampleCharacter
      [.str "Brave", .str "Wise", .str "Mysterious"] rfl rfl rfl).1 (by decide)⟩

/-- C3: every table the loader derives from a document containing the
framework section maps each of the twelve supplemental names to its fixed
descriptor with its fixed description, the supplemental assignments being
applied after and overwriting any document-derived entry of the same name.
(Amended from the claim: when the framework section is absent the extractor
returns early with only the "zodiac" key and never adds the supplemental
entries.) -/
theorem claim_C3 (doc fw : JValue) (t : SymTable)
    (hfw : find_section doc "Universal Symbology Framework" = .ok (some fw))
    (hok : extract_symbols doc = .ok t) :
    dictFind? t (.str "Point") =
      some (.obj [(.str "name", .str "Point"),
        (.str "description", .str "Existence, Origin, Singularity")]) ∧
    dictFind? t (.str "Line") =
      some (.obj [(.str "name", .str "Line"),
        (.str "description", .str "Connection, Continuity, Direction")]) ∧
    dictFind? t (.str "Angle") =
      some (.obj [(.str "name", .str "Angle"),
        (.str "description", .str "Intersection, Divergence, Relationship")]) ∧
    dictFind? t (.str "Curve") =
      some (.obj [(.str "name", .str "Curve"),
        (.str "description", .str "Change, Fluidity, Transformation")]) ∧
    dictFind? t (.str "Circle") =
      some (.obj [(.str "name", .str "Circle"),
        (.str "description", .str "Unity, Wholeness, Cycles")]) ∧
    dictFind? t (.str "Triangle") =
      some (.obj [(.str "name", .str "Triangle"),
        (.str "description", .str "Stability, Harmony, Balance")]) ∧
    dictFind? t (.str "Square") =
      some (.obj [(.str "name", .str "Square"),
        (.str "description", .str "Structure, Order, Foundation")]) ∧
    dictFind? t (.str "Spiral") =
      some (.obj [(.str "name", .str "Spiral"),
        (.str "description", .str "Growth, Evolution, Expansion")]) ∧
    dictFind? t (.str "Wave") =
      some (.obj [(.str "name", .str "Wave"),
        (.str "description", .str "Vibration, Energy, Frequency")]) ∧
    dictFind? t (.str "SwordSymbol") =
      some (.obj [(.str "name", .str "SwordSymbol"),
        (.str "description", .str "Symbol for a Warrior")]) ∧
    dictFind? t (.str "StarSymbol") =
      some (.obj [(.str "name", .str "StarSymbol"),
        (.str "description", .str "Symbol for a Mage or Star")]) ∧
    dictFind? t (.str "SunSymbol") =
      some (.obj [(.str "name", .str "SunSymbol"),
        (.str "description", .str "Symbol for Sun")]) := by
  obtain ⟨s, rfl⟩ := extract_ok_shape hfw hok
  exact supp_lookups s

theorem claim_C3_cex :
    extract_symbols (.obj []) = .ok [(.str "zodiac", .obj [])] ∧
    dictFind? [(.str "zodiac", .obj [])] (.str "Point") = none :=
  ⟨rfl, rfl⟩

theorem claim_C3_witness :
    extract_symbols sampleDoc = .ok sampleTable ∧
    dictFind? sampleTable (.str "Point") =
      some (.obj [(.str "name", .str "Point"),
        (.str "description", .str "Existence, Origin, Singularity")]) :=
  ⟨rfl, (claim_C3 sampleDoc sampleFramework sampleTable rfl rfl).1⟩

/-- C4: against a table derived from a framework-containing document that
has no top-level "UnknownRole" or "DefaultNameSymbol" entry, Role "Warrior"
resolves to "SwordSymbol", "Mage" to "StarSymbol", and any other hashable
Role to the literal "UnknownRole" used as both the missing lookup key and
the fallback name; likewise NameMeaning "Star" resolves to "StarSymbol",
"Sun" to "SunSymbol", and any other hashable meaning to "DefaultNameSymbol".
(Amended from the claim: without the framework section the supplemental
symbols are missing and even Role "Warrior" degrades to "UnknownRole"; a
document-derived modality registered under a fallback key would change the
fallback's display name.) -/
theorem claim_C4 (doc fw : JValue) (t : SymTable) (cd r nd m : JValue)
    (hfw : find_section doc "Universal Symbology Framework" = .ok (some fw))
    (hok : extract_symbols doc = .ok t)
    (hur : dictFind? t (.str "UnknownRole") = none)
    (hdn : dictFind? t (.str "DefaultNameSymbol") = none)
    (hr : pyGetD cd (.str "Role") .null = .ok r)
    (hnd : pyGetD cd (.str "NameData") (.obj []) = .ok nd)
    (hm : pyGetD nd (.str "NameMeaning") .null = .ok m) :
    (r = .str "Warrior" → determine_role_symbol t cd = .ok (.str "SwordSymbol")) ∧
    (r = .str "Mage" → determine_role_symbol t cd = .ok (.str "StarSymbol")) ∧
    (r.hashable = true → r ≠ .str "Warrior" → r ≠ .str "Mage" →
      determine_role_symbol t cd = .ok (.str "UnknownRole")) ∧
    (m = .str "Star" → determine_name_symbol t cd = .ok (.str "StarSymbol")) ∧
    (m = .str "Sun" → determine_name_symbol t cd = .ok (.str "SunSymbol")) ∧
    (m.hashable = true → m ≠ .str "Star" → m ≠ .str "Sun" →
      determine_name_symbol t cd = .ok (.str "DefaultNameSymbol")) := by
  obtain ⟨s, rfl⟩ := extract_ok_shape hfw hok
  have hs := supp_lookups s
  refine ⟨?_, ?_, ?_, ?_, ?_, ?_⟩
  · intro hw
    subst hw
    unfold determine_role_symbol
    rw [hr, exbind_ok]
    simp only [strMapGet?, JValue.hashable, role_map, List.lookup, exbind_ok]
    simp [exbind_ok, Option.getD, symGetD, hs.2.2.2.2.2.2.2.2.2.1, pyGetD, JValue.hashable, dictFind?]
  · intro hw
    subst hw
    unfold determine_role_symbol
    rw [hr, exbind_ok]
    simp only [strMapGet?, JValue.hashable, role_map, List.lookup, exbind_ok]
    simp [exbind_ok, Option.getD, symGetD, hs.2.2.2.2.2.2.2.2.2.2.1, pyGetD, JValue.hashable, dictFind?]
  · intro hh h1 h2
    unfold determine_role_symbol
    rw [hr, exbind_ok]
    have hlook : strMapGet? role_map r = .ok none := by
      unfold strMapGet?
      rw [if_pos hh]
      cases r with
      | str sr =>
          have hs1 : sr ≠ "Warrior" := fun hx => h1 (by rw [hx])
          have hs2 : sr ≠ "Mage" := fun hx => h2 (by rw [hx])
          simp [role_map, List.lookup, beq_eq_false_iff_ne.mpr hs1, beq_eq_false_iff_ne.mpr hs2]
      | null => rfl
      | bool b => rfl
      | num n => rfl
      | arr xs => rfl
      | obj kvs => rfl
    rw [hlook, exbind_ok]
    simp only [Option.getD]
    simp [symGetD, hur, pyGetD, JValue.hashable, dictFind?]
  · intro hw
    subst hw
    unfold determine_name_symbol
    rw [hnd, exbind_ok, hm, exbind_ok]
    simp only [strMapGet?, JValue.hashable, name_map, List.lookup, exbind_ok]
    simp [exbind_ok, Option.getD, symGetD, hs.2.2.2.2.2.2.2.2.2.2.1, pyGetD, JValue.hashable, dictFind?]
  · intro hw
    subst hw
    unfold determine_name_symbol
    rw [hnd, exbind_ok, hm, exbind_ok]
    simp only [strMapGet?, JValue.hashable, name_map, List.lookup, exbind_ok]
    simp [exbind_ok, Option.getD, symGetD, hs.2.2.2.2.2.2.2.2.2.2.2, pyGetD, JValue.hashable, dictFind?]
  · intro hh h1 h2
    unfold determine_name_symbol
    rw [hnd, exbind_ok, hm, exbind_ok]
    have hlook : strMapGet? name_map m = .ok none := by
      unfold strMapGet?
      rw [if_pos hh]
      cases m with
      | str sm =>
          have hs1 : sm ≠ "Star" := fun hx => h1 (by rw [hx])
          have hs2 : sm ≠ "Sun" := fun hx => h2 (by rw [hx])
          simp [name_map, List.lookup, beq_eq_false_iff_ne.mpr hs1, beq_eq_false_iff_ne.mpr hs2]
      | null => rfl
      | bool b => rfl
      | num n => rfl
      | arr xs => rfl
      | obj kvs => rfl
    rw [hlook, exbind_ok]
    simp only [Option.getD]
    simp [symGetD, hdn, pyGetD, JValue.hashable, dictFind?]

theorem claim_C4_cex :
    extract_symbols (.obj []) = .ok [(.str "zodiac", .obj [])] ∧
    determine_role_symbol [(.str "zodiac", .obj [])]
      (.obj [(.str "Role", .str "Warrior")]) = .ok (.str "UnknownRole") ∧
    (JValue.str "UnknownRole" ≠ .str "SwordSymbol") :=
  ⟨rfl, rfl, by decide⟩

theorem claim_C4_witness :
    extract_symbols sampleDoc = .ok sampleTable ∧
    determine_role_symbol sampleTable sampleCharacter = .ok (.str "StarSymbol") ∧
    determine_name_symbol sampleTable sampleCharacter = .ok (.str "StarSymbol") :=
  ⟨rfl,
    (claim_C4 sampleDoc sampleFramework sampleTable sampleCharacter
      (.str "Mage") (.obj [(.str "NameMeaning", .str "Star")]) (.str "Star")
      rfl rfl rfl rfl rfl rfl rfl).2.1 rfl,
    (claim_C4 sampleDoc sampleFramework sampleTable sampleCharacter
      (.str "Mage") (.obj [(.str "NameMeaning", .str "Star")]) (.str "Star")
      rfl rfl rfl rfl rfl rfl rfl).2.2.2.1 rfl⟩

theorem personalityStep_ok (symbols : SymTable) (acc : List JValue) (x : JValue)
    (hx : x.hashable = true) :
    personalityStep symbols acc x = .ok (acc ++ (traitImage symbols x).toList) := by
  unfold personalityStep strMapGet?
  rw [if_pos hx, exbind_ok]
  cases x with
  | str s =>
      cases hl : trait_map.lookup s with
      | none => simp [traitImage, hl]
      | some sym =>
          by_cases hc : symContains symbols sym = true <;>
            simp [traitImage, hl, hc]
  | null => simp [traitImage]
  | bool b => simp [traitImage]
  | num n => simp [traitImage]
  | arr xs => simp [traitImage]
  | obj kvs => simp [traitImage]

theorem personality_fold (symbols : SymTable) :
    ∀ (l acc : List JValue), (∀ x ∈ l, x.hashable = true) →
    foldE (personalityStep symbols) acc l =
      .ok (acc ++ personality_symbols_spec symbols l)
  | [], acc, _ => by simp [foldE, personality_symbols_spec]
  | x :: xs, acc, hh => by
      unfold foldE
      rw [personalityStep_ok symbols acc x (hh x (by simp))]
      simp only
      rw [personality_fold symbols xs _ (fun y hy => hh y (by simp [hy]))]
      cases hfx : traitImage symbols x <;>
        simp [personality_symbols_spec, List.filterMap_cons, hfx]

theorem personality_eq (symbols : SymTable) (cd : JValue) (l : List JValue)
    (htr : pyGetD cd (.str "PersonalityTraits") (.arr []) = .ok (.arr l))
    (hh : ∀ x ∈ l, x.hashable = true) :
    determine_personality_symbols symbols cd =
      .ok (personality_symbols_spec symbols l) := by
  unfold determine_personality_symbols
  rw [htr, exbind_ok]
  simp only [pyIter, exbind_ok]
  simpa using personality_fold symbols l [] hh

/-- C2: against any symbol table, the personality resolver applies the fixed
trait map to each trait in input order, keeping exactly the mapped traits
whose symbol name is a key of the table, silently dropping the rest and
preserving duplicates; an empty list yields the empty list, and
["Brave","Wise","Mysterious"] yields ["Triangle","Spiral","Wave"] whenever
those names are keys.  (Amended from the claim: the trait entries must be
hashable — an unhashable entry such as a nested list raises `TypeError`
instead of being dropped.) -/
theorem claim_C2 (symbols : SymTable) (cd : JValue) (l : List JValue)
    (htr : pyGetD cd (.str "PersonalityTraits") (.arr []) = .ok (.arr l))
    (hh : ∀ x ∈ l, x.hashable = true) :
    determine_personality_symbols symbols cd =
      .ok (personality_symbols_spec symbols l) ∧
    (l = [] → determine_personality_symbols symbols cd = .ok []) ∧
    (l = [.str "Brave", .str "Wise", .str "Mysterious"] →
      symContains symbols "Triangle" = true →
      symContains symbols "Spiral" = true →
      symContains symbols "Wave" = true →
      determine_personality_symbols symbols cd =
        .ok [.str "Triangle", .str "Spiral", .str "Wave"]) := by
  have hmain := personality_eq symbols cd l htr hh
  refine ⟨hmain, ?_, ?_⟩
  · intro hl
    subst hl
    simpa [personality_symbols_spec] using hmain
  · intro hl h1 h2 h3
    subst hl
    rw [hmain]
    simp [personality_symbols_spec, traitImage, trait_map, List.lookup, h1, h2, h3]

theorem claim_C2_cex :
    extract_symbols (.obj []) = .ok [(.str "zodiac", .obj [])] ∧
    determine_personality_symbols [(.str "zodiac", .obj [])]
      (.obj [(.str "PersonalityTraits", .arr [.arr []])]) = .error .typeError :=
  ⟨rfl, rfl⟩

theorem claim_C2_witness :
    determine_personality_symbols sampleTable sampleCharacter =
      .ok [.str "Triangle", .str "Spiral", .str "Wave"] :=
  (claim_C2 sampleTable sampleCharacter
    [.str "Brave", .str "Wise", .str "Mysterious"] rfl (by decide)).2.2
    rfl rfl rfl rfl

/-- C5: against a loader-derived table whose "zodiac" entry holds only
record values, the astrological resolver returns the sign's record (Sign =
the input name, Element and Modality read from the descriptor, possibly
null) when the hashable sign name is truthy and mapped to a record by the
zodiac sub-mapping, and the fixed Unknown sentinel when the sign is absent,
empty or not a key.  (Amended from the claim: the value found under the sign
must itself be a record and the sign value hashable; a document that
registers an element or modality named "zodiac" makes the resolver raise
`AttributeError` instead.) -/
theorem claim_C5 (doc : JValue) (t : SymTable) (Z : List (JValue × JValue))
    (cd ad s : JValue)
    (hok : extract_symbols doc = .ok t)
    (hz : dictFind? t (.str "zodiac") = some (.obj Z))
    (had : pyGetD cd (.str "AstrologicalData") (.obj []) = .ok ad)
    (hsn : pyGetD ad (.str "ZodiacSign") .null = .ok s)
    (hh : s.hashable = true) :
    (∀ o, s.truthy = true → dictFind? Z s = some (.obj o) →
      determine_astrological_profile t cd =
        .ok ⟨s, (dictFind? o (.str "element")).getD .null,
             (dictFind? o (.str "modality")).getD .null⟩) ∧
    (s.truthy = false → determine_astrological_profile t cd = .ok unknownAstro) ∧
    (dictFind? Z s = none →
      determine_astrological_profile t cd = .ok unknownAstro) := by
  refine ⟨?_, ?_, ?_⟩
  · intro o htr hfind
    unfold determine_astrological_profile
    rw [had, exbind_ok, hsn, exbind_ok, if_pos htr]
    cases s with
    | arr xs => exact absurd hh (by simp [JValue.hashable])
    | obj kvs => exact absurd hh (by simp [JValue.hashable])
    | null => simp [jIndex, JValue.hashable, hz, pyContains, hfind, pyGetD, exbind_ok]
    | bool b => simp [jIndex, JValue.hashable, hz, pyContains, hfind, pyGetD, exbind_ok]
    | num n => simp [jIndex, JValue.hashable, hz, pyContains, hfind, pyGetD, exbind_ok]
    | str ss => simp [jIndex, JValue.hashable, hz, pyContains, hfind, pyGetD, exbind_ok]
  · intro htr
    unfold determine_astrological_profile
    rw [had, exbind_ok, hsn, exbind_ok, if_neg (by simp [htr])]
  · intro hfind
    by_cases htr : s.truthy = true
    · unfold determine_astrological_profile
      rw [had, exbind_ok, hsn, exbind_ok, if_pos htr]
      cases s with
      | arr xs => exact absurd hh (by simp [JValue.hashable])
      | obj kvs => exact absurd hh (by simp [JValue.hashable])
      | null => simp [jIndex, JValue.hashable, hz, pyContains, hfind, exbind_ok]
      | bool b => simp [jIndex, JValue.hashable, hz, pyContains, hfind, exbind_ok]
      | num n => simp [jIndex, JValue.hashable, hz, pyContains, hfind, exbind_ok]
      | str ss => simp [jIndex, JValue.hashable, hz, pyContains, hfind, exbind_ok]
    · unfold determine_astrological_profile
      rw [had, exbind_ok, hsn, exbind_ok, if_neg htr]

theorem claim_C5_cex :
    extract_symbols advDoc = .ok advTable ∧
    determine_astrological_profile advTable advCharacter =
      .error .attributeError :=
  ⟨rfl, rfl⟩

theorem claim_C5_witness :
    extract_symbols sampleDoc = .ok sampleTable ∧
    determine_astrological_profile sampleTable sampleCharacter =
      .ok ⟨.str "Aries", .str "Fire", .str "Cardinal"⟩ := by
  refine ⟨rfl, ?_⟩
  have h := (claim_C5 sampleDoc sampleTable
      [(.str "Aries", .obj [(.str "name", .str "Aries"),
        (.str "element", .str "Fire"), (.str "modality", .str "Cardinal")])]
      sampleCharacter (.obj [(.str "ZodiacSign", .str "Aries")]) (.str "Aries")
      rfl rfl rfl rfl rfl).1
    [(.str "name", .str "Aries"), (.str "element", .str "Fire"),
     (.str "modality", .str "Cardinal")]
    rfl rfl
  exact h

/-- C6: whatever profile `profile_character` returns, its
Symbolic_Representation field is exactly the composite template instantiated
with Python's `str` rendering of the resolved components, the personality
list rendered with the default list-to-text conversion. -/
theorem claim_C6 (symbols : SymTable) (cd : JValue) (p : Profile)
    (h : profile_character symbols cd = .ok p) :
    p.Symbolic_Representation =
      "Encapsulate(Superimpose(" ++ pyStr p.Core ++ ", " ++
        pyStr (.arr p.Personality) ++ "), " ++ pyStr p.Role ++
        ") AdjacentTo(" ++ pyStr p.Astrology.Element ++ ", " ++
        pyStr p.Astrology.Modality ++ ") Enclose(" ++ pyStr p.Name ++ ")" := by
  unfold profile_character at h
  cases h1 : determine_core_symbol symbols cd with
  | error e => rw [h1, exbind_error] at h; exact absurd h (by simp)
  | ok core =>
      rw [h1, exbind_ok] at h
      cases h2 : determine_personality_symbols symbols cd with
      | error e => rw [h2, exbind_error] at h; exact absurd h (by simp)
      | ok ps =>
          rw [h2, exbind_ok] at h
          cases h3 : determine_role_symbol symbols cd with
          | error e => rw [h3, exbind_error] at h; exact absurd h (by simp)
          | ok role =>
              rw [h3, exbind_ok] at h
              cases h4 : determine_astrological_profile symbols cd with
              | error e => rw [h4, exbind_error] at h; exact absurd h (by simp)
              | ok astro =>
                  rw [h4, exbind_ok] at h
                  cases h5 : determine_name_symbol symbols cd with
                  | error e => rw [h5, exbind_error] at h; exact absurd h (by simp)
                  | ok nm =>
                      rw [h5, exbind_ok] at h
                      cases Except.ok.inj h
                      simp [symbolic_representation]

theorem claim_C6_witness :
    profile_character sampleTable sampleCharacter = .ok sampleProfile ∧
    sampleProfile.Symbolic_Representation =
      "Encapsulate(Superimpose(" ++ pyStr sampleProfile.Core ++ ", " ++
        pyStr (.arr sampleProfile.Personality) ++ "), " ++
        pyStr sampleProfile.Role ++ ") AdjacentTo(" ++
        pyStr sampleProfile.Astrology.Element ++ ", " ++
        pyStr sampleProfile.Astrology.Modality ++ ") Enclose(" ++
        pyStr sampleProfile.Name ++ ")" :=
  ⟨rfl, claim_C6 sampleTable sampleCharacter sampleProfile rfl⟩

theorem pyGetD_obj_ok (kvs : List (JValue × JValue)) (f : String) (d : JValue) :
    pyGetD (.obj kvs) (.str f) d = .ok ((dictFind? kvs (.str f)).getD d) := by
  simp [pyGetD, JValue.hashable]

theorem symGetD_obj {t : SymTable} (hinv : TableInv t) (k : String)
    (d : List (JValue × JValue)) :
    ∃ kvs, symGetD t k (.obj d) = .obj kvs := by
  unfold symGetD
  cases hf : dictFind? t (.str k) with
  | none => exact ⟨d, rfl⟩
  | some v =>
      obtain ⟨o, ho⟩ := hinv.2 _ (dictFind?_mem hf)
      exact ⟨o, by simp [ho.symm]⟩

theorem core_total {t : SymTable} {cd : JValue} {l : List JValue}
    (hinv : TableInv t)
    (htr : pyGetD cd (.str "PersonalityTraits") (.arr []) = .ok (.arr l)) :
    isOkE (determine_core_symbol t cd) = true := by
  obtain ⟨ckvs, rfl⟩ := pyGetD_ok_obj htr
  unfold determine_core_symbol
  rw [htr, exbind_ok]
  simp only [pyContains, exbind_ok]
  by_cases hb : (.str "Brave") ∈ l
  · simp only [hb, decide_eq_true_eq, if_true]
    obtain ⟨kvs, hk⟩ := symGetD_obj hinv "Triangle" []
    rw [hk, pyGetD_obj_ok]
    rfl
  · simp only [hb, decide_eq_true_eq, if_false]
    rw [pyGetD_obj_ok, exbind_ok]
    by_cases ho : ((dictFind? ckvs (.str "Origin")).getD .null) = .str "Celestial"
    · rw [if_pos ho]
      obtain ⟨kvs, hk⟩ := symGetD_obj hinv "Circle" []
      rw [hk, pyGetD_obj_ok]
      rfl
    · rw [if_neg ho]
      obtain ⟨kvs, hk⟩ := symGetD_obj hinv "Point" []
      rw [hk, pyGetD_obj_ok]
      rfl

theorem personality_total {t : SymTable} {cd : JValue} {l : List JValue}
    (htr : pyGetD cd (.str "PersonalityTraits") (.arr []) = .ok (.arr l))
    (hh : ∀ x ∈ l, x.hashable = true) :
    isOkE (determine_personality_symbols t cd) = true := by
  rw [personality_eq t cd l htr hh]
  rfl

theorem nameLookup_total {t : SymTable} (hinv : TableInv t) (sn : String)
    (d : List (JValue × JValue)) :
    isOkE (pyGetD (symGetD t sn (.obj d)) (.str "name") .null) = true := by
  obtain ⟨kvs, hk⟩ := symGetD_obj hinv sn d
  rw [hk, pyGetD_obj_ok]
  rfl

theorem role_total {t : SymTable} {cd r : JValue}
    (hinv : TableInv t)
    (hr : pyGetD cd (.str "Role") .null = .ok r)
    (hrh : r.hashable = true) :
    isOkE (determine_role_symbol t cd) = true := by
  unfold determine_role_symbol
  rw [hr, exbind_ok]
  unfold strMapGet?
  rw [if_pos hrh, exbind_ok]
  exact nameLookup_total hinv _ _

theorem name_total {t : SymTable} {cd m : JValue} {nd : List (JValue × JValue)}
    (hinv : TableInv t)
    (hnd : pyGetD cd (.str "NameData") (.obj []) = .ok (.obj nd))
    (hm : pyGetD (.obj nd) (.str "NameMeaning") .null = .ok m)
    (hmh : m.hashable = true) :
    isOkE (determine_name_symbol t cd) = true := by
  unfold determine_name_symbol
  rw [hnd, exbind_ok, hm, exbind_ok]
  unfold strMapGet?
  rw [if_pos hmh, exbind_ok]
  exact nameLookup_total hinv _ _

theorem astro_total {t : SymTable} {cd s : JValue} {Z ad : List (JValue × JValue)}
    (hz : dictFind? t (.str "zodiac") = some (.obj Z))
    (hzv : ∀ p ∈ Z, ∃ o, p.2 = .obj o)
    (had : pyGetD cd (.str "AstrologicalData") (.obj []) = .ok (.obj ad))
    (hs : pyGetD (.obj ad) (.str "ZodiacSign") .null = .ok s)
    (hsh : s.hashable = true) :
    isOkE (determine_astrological_profile t cd) = true := by
  unfold determine_astrological_profile
  rw [had, exbind_ok, hs, exbind_ok]
  by_cases htr : s.truthy = true
  · rw [if_pos htr]
    have hji : jIndex (.obj t) (.str "zodiac") = .ok (.obj Z) := by
      simp [jIndex, JValue.hashable, hz]
    rw [hji, exbind_ok]
    have hpc : pyContains (.obj Z) s = .ok ((dictFind? Z s).isSome) := by
      simp [pyContains, hsh]
    rw [hpc, exbind_ok]
    cases hfind : dictFind? Z s with
    | none => simp [isOkE]
    | some v =>
        obtain ⟨o, ho⟩ := hzv _ (dictFind?_mem hfind)
        subst ho
        rw [if_pos (show (some (JValue.obj o)).isSome = true from rfl),
          exbind_ok]
        have h2 : jIndex (.obj Z) s = .ok (.obj o) := by
          simp [jIndex, hsh, hfind]
        rw [h2, exbind_ok, pyGetD_obj_ok, exbind_ok, pyGetD_obj_ok]
        rfl
  · rw [if_neg htr]
    rfl

/-- C7: `profile_character` is a function of the table and the character
record alone, and evaluation returns normally whenever the character's
recognized fields have their documented shapes (trait list with hashable
entries, `AstrologicalData` and `NameData` records, hashable `Role`,
`ZodiacSign` and `NameMeaning`) and every value the table's "zodiac" entry
holds is itself a record.  (Amended from the claim: the zodiac-entry values
must be records — a document registering an element named "zodiac" makes a
matching lookup raise `AttributeError` — and the scalar fields must be
hashable, or the dict operations raise `TypeError`.) -/
theorem claim_C7 (doc : JValue) (t : SymTable) (Z : List (JValue × JValue))
    (cd r s m : JValue) (l : List JValue) (ad nd : List (JValue × JValue))
    (hok : extract_symbols doc = .ok t)
    (hz : dictFind? t (.str "zodiac") = some (.obj Z))
    (hzv : ∀ p ∈ Z, ∃ o, p.2 = .obj o)
    (htr : pyGetD cd (.str "PersonalityTraits") (.arr []) = .ok (.arr l))
    (hlh : ∀ x ∈ l, x.hashable = true)
    (had : pyGetD cd (.str "AstrologicalData") (.obj []) = .ok (.obj ad))
    (hnd : pyGetD cd (.str "NameData") (.obj []) = .ok (.obj nd))
    (hr : pyGetD cd (.str "Role") .null = .ok r)
    (hrh : r.hashable = true)
    (hs : pyGetD (.obj ad) (.str "ZodiacSign") .null = .ok s)
    (hsh : s.hashable = true)
    (hm : pyGetD (.obj nd) (.str "NameMeaning") .null = .ok m)
    (hmh : m.hashable = true) :
    isOkE (profile_character t cd) = true := by
  have hinv := extract_ok_inv hok
  unfold profile_character
  cases h1 : determine_core_symbol t cd with
  | error e => exact absurd (core_total hinv htr) (by simp [isOkE, h1])
  | ok core =>
      rw [exbind_ok]
      cases h2 : determine_personality_symbols t cd with
      | error e =>
          exact absurd (personality_total (t := t) htr hlh) (by simp [isOkE, h2])
      | ok ps =>
          rw [exbind_ok]
          cases h3 : determine_role_symbol t cd with
          | error e => exact absurd (role_total hinv hr hrh) (by simp [isOkE, h3])
          | ok role =>
              rw [exbind_ok]
              cases h4 : determine_astrological_profile t cd with
              | error e =>
                  exact absurd (astro_total hz hzv had hs hsh) (by simp [isOkE, h4])
              | ok astro =>
                  rw [exbind_ok]
                  cases h5 : determine_name_symbol t cd with
                  | error e =>
                      exact absurd (name_total hinv hnd hm hmh) (by simp [isOkE, h5])
                  | ok nm =>
                      rw [exbind_ok]
                      rfl

theorem claim_C7_cex :
    extract_symbols advDoc = .ok advTable ∧
    profile_character advTable advCharacter = .error .attributeError :=
  ⟨rfl, rfl⟩

theorem claim_C7_witness :
    extract_symbols sampleDoc = .ok sampleTable ∧
    isOkE (profile_character sampleTable sampleCharacter) = true :=
  ⟨rfl,
    claim_C7 sampleDoc sampleTable
      [(.str "Aries", .obj [(.str "name", .str "Aries"),
        (.str "element", .str "Fire"), (.str "modality", .str "Cardinal")])]
      sampleCharacter (.str "Mage") (.str "Aries") (.str "Star")
      [.str "Brave", .str "Wise", .str "Mysterious"]
      [(.str "ZodiacSign", .str "Aries")]
      [(.str "NameMeaning", .str "Star")]
      rfl rfl
      (by intro p hp; simp at hp; rw [hp]; exact ⟨_, rfl⟩)
      rfl (by decide) rfl rfl rfl rfl rfl rfl rfl rfl⟩

theorem cacheFind?_append_miss {β : Type} {l : List (String × β)} {k : String}
    {v : β} (h : cacheFind? l k = none) :
    cacheFind? (l ++ [(k, v)]) k = some v := by
  induction l with
  | nil => simp [cacheFind?]
  | cons p tl ih =>
      obtain ⟨pk, pv⟩ := p
      by_cases h1 : pk = k
      · subst h1
        simp [cacheFind?] at h
      · simp [cacheFind?, h1] at h ⊢
        exact ih h

theorem loadStage_ok {fs : String → Option JValue} {f : String}
    {st st1 : LoaderState} {reads : List String}
    (h : loadStage fs f st = .ok (st1, reads)) :
    (∃ d, cacheFind? st1.symbology_cache f = some d) ∧
    st1.symbols_cache = st.symbols_cache := by
  unfold loadStage at h
  split at h
  · rename_i hc
    cases Except.ok.inj h
    obtain ⟨d, hd⟩ := Option.isSome_iff_exists.mp hc
    exact ⟨⟨d, hd⟩, rfl⟩
  · rename_i hc
    cases hfs : fs f with
    | none => rw [hfs] at h; exact absurd h (by simp)
    | some doc =>
        rw [hfs] at h
        cases Except.ok.inj h
        refine ⟨⟨doc, ?_⟩, rfl⟩
        exact cacheFind?_append_miss (Option.not_isSome_iff_eq_none.mp hc)

theorem deriveStage_ok {f : String} {sym : JValue} {st st1 : LoaderState}
    {der : List String}
    (h : deriveStage f sym st = .ok (st1, der)) :
    (∃ tbl, cacheFind? st1.symbols_cache f = some tbl) ∧
    st1.symbology_cache = st.symbology_cache := by
  unfold deriveStage at h
  split at h
  · rename_i hc
    cases Except.ok.inj h
    obtain ⟨tbl, hd⟩ := Option.isSome_iff_exists.mp hc
    exact ⟨⟨tbl, hd⟩, rfl⟩
  · rename_i hc
    cases hex : extract_symbols sym with
    | error e => rw [hex, exbind_error] at h; exact absurd h (by simp)
    | ok tbl =>
        rw [hex, exbind_ok] at h
        cases Except.ok.inj h
        refine ⟨⟨tbl, ?_⟩, rfl⟩
        exact cacheFind?_append_miss (Option.not_isSome_iff_eq_none.mp hc)

/-- C8: a successful `__init__` leaves both caches populated for its
identifier, and constructing again for the same identifier returns the same
raw document and symbol table by value, performs no file-system read and no
symbol-table derivation, and leaves both caches unchanged. -/
theorem claim_C8 (fs : String → Option JValue) (f : String)
    (st : LoaderState) (o : LoadOutcome)
    (h : profiler_init fs f st = .ok o) :
    cacheFind? o.state.symbology_cache f = some o.symbology ∧
    cacheFind? o.state.symbols_cache f = some o.symbols ∧
    profiler_init fs f o.state = .ok ⟨o.symbology, o.symbols, o.state, [], []⟩ := by
  unfold profiler_init at h
  cases hls : loadStage fs f st with
  | error e => rw [hls, exbind_error] at h; exact absurd h (by simp)
  | ok p1 =>
      obtain ⟨st1, reads⟩ := p1
      rw [hls, exbind_ok] at h
      simp only at h
      obtain ⟨⟨d, hd⟩, -⟩ := loadStage_ok hls
      rw [hd] at h
      simp only [exbind_ok] at h
      cases hds : deriveStage f d st1 with
      | error e => rw [hds, exbind_error] at h; exact absurd h (by simp)
      | ok p2 =>
          obtain ⟨st2, der⟩ := p2
          rw [hds, exbind_ok] at h
          simp only at h
          obtain ⟨⟨tbl, htbl⟩, hpres⟩ := deriveStage_ok hds
          rw [htbl] at h
          simp only [exbind_ok] at h
          cases Except.ok.inj h
          have hd2 : cacheFind? st2.symbology_cache f = some d := by
            rw [hpres]; exact hd
          refine ⟨hd2, htbl, ?_⟩
          unfold profiler_init
          have hls2 : loadStage fs f st2 = .ok (st2, []) := by
            unfold loadStage
            rw [if_pos (by simp [hd2])]
          rw [hls2, exbind_ok]
          simp only
          rw [hd2]
          simp only [exbind_ok]
          have hds2 : deriveStage f d st2 = .ok (st2, []) := by
            unfold deriveStage
            rw [if_pos (by simp [htbl])]
          rw [hds2, exbind_ok]
          simp only
          rw [htbl]

theorem claim_C8_witness :
    profiler_init fs0 "symbology.jsonld" ⟨[], []⟩ = .ok firstOutcome ∧
    profiler_init fs0 "symbology.jsonld" firstOutcome.state =
      .ok ⟨sampleDoc, sampleTable, firstOutcome.state, [], []⟩ :=
  ⟨rfl,
    (claim_C8 fs0 "symbology.jsonld" ⟨[], []⟩ firstOutcome rfl).2.2⟩

theorem processElement_shape {t t' : SymTable} {e : JValue}
    (h : processElement t e = .ok t') :
    ∃ n, jIndex e (.str "name") = .ok n ∧ t' = dictSet t n e := by
  unfold processElement at h
  cases hn : jIndex e (.str "name") with
  | error er => rw [hn, exbind_error] at h; exact absurd h (by simp)
  | ok name =>
      rw [hn, exbind_ok] at h
      unfold pySetItem at h
      split at h
      · exact ⟨name, rfl, (Except.ok.inj h).symm⟩
      · exact absurd h (by simp)

theorem processModality_shape {t t' : SymTable} {m : JValue}
    (h : processModality t m = .ok t') :
    ∃ n, jIndex m (.str "modalityType") = .ok n ∧ t' = dictSet t n m := by
  unfold processModality at h
  cases hn : jIndex m (.str "modalityType") with
  | error er => rw [hn, exbind_error] at h; exact absurd h (by simp)
  | ok name =>
      rw [hn, exbind_ok] at h
      unfold pySetItem at h
      split at h
      · exact ⟨name, rfl, (Except.ok.inj h).symm⟩
      · exact absurd h (by simp)

theorem fold_keys_preserve (field : String)
    (proc : SymTable → JValue → Except PyError SymTable)
    (hproc : ∀ t e t', proc t e = .ok t' →
      ∃ n, jIndex e (.str field) = .ok n ∧ t' = dictSet t n e) :
    ∀ (es : List JValue) (t t' : SymTable) (ks : List JValue),
      foldE proc t es = .ok t' → collectKeys field es = .ok ks →
      (.str "zodiac") ∉ ks →
      dictFind? t' (.str "zodiac") = dictFind? t (.str "zodiac")
  | [], t, t', ks, hf, _, _ => by
      simp [foldE] at hf
      rw [hf]
  | e :: rest, t, t', ks, hf, hc, hnz => by
      unfold foldE at hf
      cases hpe : proc t e with
      | error er => rw [hpe] at hf; simp at hf
      | ok t1 =>
          rw [hpe] at hf
          simp only at hf
          obtain ⟨n, hjn, rfl⟩ := hproc t e t1 hpe
          unfold collectKeys at hc
          rw [hjn, exbind_ok] at hc
          cases hcr : collectKeys field rest with
          | error er => rw [hcr, exbind_error] at hc; exact absurd hc (by simp)
          | ok ns =>
              rw [hcr, exbind_ok] at hc
              cases Except.ok.inj hc
              have hn1 : n ≠ (.str "zodiac") := by
                intro hcontra
                exact hnz (by simp [hcontra])
              have hns : (.str "zodiac") ∉ ns := fun hcontra => hnz (by simp [hcontra])
              rw [fold_keys_preserve field proc hproc rest _ t' ns hf hcr hns]
              rw [dictFind?_dictSet]
              rw [if_neg hn1]

theorem fold_signs_zodiac :
    ∀ (sgs : List JValue) (t t' : SymTable) (zk : List (JValue × JValue)),
      dictFind? t (.str "zodiac") = some (.obj zk) →
      foldE processSign t sgs = .ok t' →
      ∃ zk', registerSigns zk sgs = .ok zk' ∧
        dictFind? t' (.str "zodiac") = some (.obj zk')
  | [], t, t', zk, hz, hf => by
      simp [foldE] at hf
      exact ⟨zk, rfl, hf ▸ hz⟩
  | sg :: rest, t, t', zk, hz, hf => by
      unfold foldE at hf
      cases hps : processSign t sg with
      | error er => rw [hps] at hf; simp at hf
      | ok t1 =>
          rw [hps] at hf
          simp only at hf
          have hji : jIndex (.obj t) (.str "zodiac") = .ok (.obj zk) := by
            simp [jIndex, JValue.hashable, hz]
          unfold processSign at hps
          rw [hji, exbind_ok] at hps
          cases hn : jIndex sg (.str "name") with
          | error er => rw [hn, exbind_error] at hps; exact absurd hps (by simp)
          | ok n =>
              rw [hn, exbind_ok] at hps
              simp only at hps
              unfold pySetItem at hps
              split at hps
              · rename_i hhash
                rw [exbind_ok] at hps
                cases Except.ok.inj hps
                have hz1 : dictFind? (dictSet t (.str "zodiac")
                    (.obj (dictSet zk n sg))) (.str "zodiac") =
                    some (.obj (dictSet zk n sg)) := by
                  rw [dictFind?_dictSet, if_pos rfl]
                obtain ⟨zk', hreg, hfind⟩ :=
                  fold_signs_zodiac rest _ t' (dictSet zk n sg) hz1 hf
                refine ⟨zk', ?_, hfind⟩
                unfold registerSigns
                rw [hn, exbind_ok]
                unfold pySetItem
                rw [if_pos hhash, exbind_ok]
                exact hreg
              · rw [exbind_error] at hps; exact absurd hps (by simp)

theorem groupElements_zodiac {t t' : SymTable} {g gtype : JValue}
    {ks : List JValue}
    (h : groupElements t g gtype = .ok t')
    (hk : groupElementKeys g gtype = .ok ks)
    (hnz : (.str "zodiac") ∉ ks) :
    dictFind? t' (.str "zodiac") = dictFind? t (.str "zodiac") := by
  unfold groupElements at h
  unfold groupElementKeys at hk
  split at h
  · rename_i hcond
    rw [if_pos hcond] at hk
    cases he : pyGetD g (.str "hasElement") (.arr []) with
    | error er => rw [he, exbind_error] at h; exact absurd h (by simp)
    | ok elems =>
        rw [he, exbind_ok] at h hk
        cases hi : pyIter elems with
        | error er => rw [hi, exbind_error] at h; exact absurd h (by simp)
        | ok items =>
            rw [hi, exbind_ok] at h hk
            exact fold_keys_preserve "name" processElement
              (fun a b c hh => processElement_shape hh) items t t' ks h hk hnz
  · rename_i hcond
    rw [if_neg hcond] at hk
    cases Except.ok.inj h
    rfl

theorem groupModalities_zodiac {t t' : SymTable} {g gtype : JValue}
    {ks : List JValue}
    (h : groupModalities t g gtype = .ok t')
    (hk : groupModalityKeys g gtype = .ok ks)
    (hnz : (.str "zodiac") ∉ ks) :
    dictFind? t' (.str "zodiac") = dictFind? t (.str "zodiac") := by
  unfold groupModalities at h
  unfold groupModalityKeys at hk
  split at h
  · rename_i hcond
    rw [if_pos hcond] at hk
    cases he : pyGetD g (.str "hasModality") (.arr []) with
    | error er => rw [he, exbind_error] at h; exact absurd h (by simp)
    | ok mods =>
        rw [he, exbind_ok] at h hk
        cases hi : pyIter mods with
        | error er => rw [hi, exbind_error] at h; exact absurd h (by simp)
        | ok items =>
            rw [hi, exbind_ok] at h hk
            exact fold_keys_preserve "modalityType" processModality
              (fun a b c hh => processModality_shape hh) items t t' ks h hk hnz
  · rename_i hcond
    rw [if_neg hcond] at hk
    cases Except.ok.inj h
    rfl

theorem group_zodiac {t t' : SymTable} {g : JValue} {ks : List JValue}
    {zk : List (JValue × JValue)}
    (hpg : processGroup t g = .ok t')
    (hem : group_em_keys g = .ok ks)
    (hnz : (.str "zodiac") ∉ ks)
    (hz : dictFind? t (.str "zodiac") = some (.obj zk)) :
    ∃ zk', group_signs zk g = .ok zk' ∧
      dictFind? t' (.str "zodiac") = some (.obj zk') := by
  unfold processGroup at hpg
  unfold group_em_keys at hem
  cases hty : pyGetD g (.str "@type") .null with
  | error er => rw [hty, exbind_error] at hpg; exact absurd hpg (by simp)
  | ok gtype =>
      rw [hty, exbind_ok] at hpg hem
      cases h1 : groupElements t g gtype with
      | error er => rw [h1, exbind_error] at hpg; exact absurd hpg (by simp)
      | ok t1 =>
          rw [h1, exbind_ok] at hpg
          cases hk1 : groupElementKeys g gtype with
          | error er => rw [hk1, exbind_error] at hem; exact absurd hem (by simp)
          | ok ks1 =>
              rw [hk1, exbind_ok] at hem
              cases h2 : groupModalities t1 g gtype with
              | error er => rw [h2, exbind_error] at hpg; exact absurd hpg (by simp)
              | ok t2 =>
                  rw [h2, exbind_ok] at hpg
                  cases hk2 : groupModalityKeys g gtype with
                  | error er =>
                      rw [hk2, exbind_error] at hem; exact absurd hem (by simp)
                  | ok ks2 =>
                      rw [hk2, exbind_ok] at hem
                      cases Except.ok.inj hem
                      have hnz1 : (.str "zodiac") ∉ ks1 :=
                        fun hc => hnz (List.mem_append_left _ hc)
                      have hnz2 : (.str "zodiac") ∉ ks2 :=
                        fun hc => hnz (List.mem_append_right _ hc)
                      have hz2 : dictFind? t2 (.str "zodiac") = some (.obj zk) := by
                        rw [groupModalities_zodiac h2 hk2 hnz2,
                            groupElements_zodiac h1 hk1 hnz1]
                        exact hz
                      cases h3 : groupSigns t2 g gtype with
                      | error er =>
                          rw [h3, exbind_error] at hpg; exact absurd hpg (by simp)
                      | ok t3 =>
                          rw [h3, exbind_ok] at hpg
                          cases Except.ok.inj hpg
                          unfold groupSigns at h3
                          unfold group_signs
                          rw [hty, exbind_ok]
                          split at h3
                          · rename_i hcond
                            rw [if_pos hcond]
                            cases hsg : pyGetD g (.str "hasZodiacSign") (.arr []) with
                            | error er =>
                                rw [hsg, exbind_error] at h3
                                exact absurd h3 (by simp)
                            | ok signs =>
                                rw [hsg, exbind_ok] at h3
                                rw [exbind_ok]
                                cases hi : pyIter signs with
                                | error er =>
                                    rw [hi, exbind_error] at h3
                                    exact absurd h3 (by simp)
                                | ok items =>
                                    rw [hi, exbind_ok] at h3
                                    rw [exbind_ok]
                                    exact fold_signs_zodiac items t2 _ zk hz2 h3
                          · rename_i hcond
                            rw [if_neg hcond]
                            cases Except.ok.inj h3
                            exact ⟨zk, rfl, hz2⟩

theorem groups_zodiac :
    ∀ (gs : List JValue) (t t' : SymTable) (ks : List JValue)
      (zk : List (JValue × JValue)),
      foldE processGroup t gs = .ok t' →
      groups_em_keys gs = .ok ks →
      (.str "zodiac") ∉ ks →
      dictFind? t (.str "zodiac") = some (.obj zk) →
      ∃ Z, groups_signs zk gs = .ok Z ∧
        dictFind? t' (.str "zodiac") = some (.obj Z)
  | [], t, t', ks, zk, hf, _, _, hz => by
      simp [foldE] at hf
      exact ⟨zk, rfl, hf ▸ hz⟩
  | g :: gs, t, t', ks, zk, hf, hk, hnz, hz => by
      unfold foldE at hf
      cases hpg : processGroup t g with
      | error er => rw [hpg] at hf; simp at hf
      | ok t1 =>
          rw [hpg] at hf
          simp only at hf
          unfold groups_em_keys at hk
          cases hk1 : group_em_keys g with
          | error er => rw [hk1, exbind_error] at hk; exact absurd hk (by simp)
          | ok ks1 =>
              rw [hk1, exbind_ok] at hk
              cases hk2 : groups_em_keys gs with
              | error er => rw [hk2, exbind_error] at hk; exact absurd hk (by simp)
              | ok ks2 =>
                  rw [hk2, exbind_ok] at hk
                  cases Except.ok.inj hk
                  have hnz1 : (.str "zodiac") ∉ ks1 :=
                    fun hc => hnz (List.mem_append_left _ hc)
                  have hnz2 : (.str "zodiac") ∉ ks2 :=
                    fun hc => hnz (List.mem_append_right _ hc)
                  obtain ⟨zk1, hg1, hz1⟩ := group_zodiac hpg hk1 hnz1 hz
                  obtain ⟨Z, hgs, hzf⟩ :=
                    groups_zodiac gs t1 t' ks2 zk1 hf hk2 hnz2 hz1
                  refine ⟨Z, ?_, hzf⟩
                  unfold groups_signs
                  rw [hg1, exbind_ok]
                  exact hgs

/-- C9: a loader-derived table always carries the key "zodiac"; when no
element or modality of the document is registered under a key equal to
"zodiac", its value is exactly the sub-mapping of signs registered from the
`AstrologicalIntegration` concept groups, and when the framework section is
absent the whole table is just the single empty "zodiac" entry.  (Amended
from the claim: an element or modality named "zodiac" overwrites the
sub-mapping, so those registrations must be excluded.) -/
theorem claim_C9 (doc : JValue) (t : SymTable) (ks : List JValue)
    (Z : List (JValue × JValue))
    (hok : extract_symbols doc = .ok t)
    (hem : element_modality_keys doc = .ok ks)
    (hnz : (.str "zodiac") ∉ ks)
    (hreg : registeredZodiac doc = .ok Z) :
    dictFind? t (.str "zodiac") = some (.obj Z) ∧
    (find_section doc "Universal Symbology Framework" = .ok none →
      t = [(.str "zodiac", .obj [])]) := by
  unfold extract_symbols at hok
  unfold element_modality_keys at hem
  unfold registeredZodiac at hreg
  cases hfs : find_section doc "Universal Symbology Framework" with
  | error er => rw [hfs, exbind_error] at hok; exact absurd hok (by simp)
  | ok ofw =>
      rw [hfs, exbind_ok] at hok hem hreg
      cases ofw with
      | none =>
          simp only at hok hem hreg
          cases Except.ok.inj hok
          cases Except.ok.inj hreg
          exact ⟨by simp [dictFind?], fun _ => rfl⟩
      | some fw =>
          simp only at hok hem hreg
          refine ⟨?_, fun hcontra => absurd hcontra (by simp)⟩
          cases hgr : pyGetD fw (.str "hasConcept") (.arr []) with
          | error er => rw [hgr, exbind_error] at hok; exact absurd hok (by simp)
          | ok groups =>
              rw [hgr, exbind_ok] at hok hem hreg
              cases hit : pyIter groups with
              | error er => rw [hit, exbind_error] at hok; exact absurd hok (by simp)
              | ok items =>
                  rw [hit, exbind_ok] at hok hem hreg
                  cases hf : foldE processGroup [(.str "zodiac", .obj [])] items with
                  | error er => rw [hf, exbind_error] at hok; exact absurd hok (by simp)
                  | ok s =>
                      rw [hf, exbind_ok] at hok
                      cases Except.ok.inj hok
                      obtain ⟨Z', hZ', hfindZ'⟩ :=
                        groups_zodiac items [(.str "zodiac", .obj [])] s ks []
                          hf hem hnz (by simp [dictFind?])
                      rw [hreg] at hZ'
                      cases Except.ok.inj hZ'
                      rw [addSupplemental_zodiac]
                      exact hfindZ'

theorem claim_C9_cex :
    extract_symbols advDoc = .ok advTable ∧
    dictFind? advTable (.str "zodiac") =
      some (.obj [(.str "name", .str "zodiac")]) ∧
    registeredZodiac advDoc = .ok [] ∧
    (JValue.obj [(.str "name", .str "zodiac")] ≠ .obj []) :=
  ⟨rfl, rfl, rfl, by decide⟩

theorem claim_C9_witness :
    extract_symbols sampleDoc = .ok sampleTable ∧
    element_modality_keys sampleDoc = .ok [] ∧
    registeredZodiac sampleDoc =
      .ok [(.str "Aries", .obj [(.str "name", .str "Aries"),
        (.str "element", .str "Fire"), (.str "modality", .str "Cardinal")])] ∧
    dictFind? sampleTable (.str "zodiac") =
      some (.obj [(.str "Aries", .obj [(.str "name", .str "Aries"),
        (.str "element", .str "Fire"), (.str "modality", .str "Cardinal")])]) :=
  ⟨rfl, rfl, rfl,
    (claim_C9 sampleDoc sampleTable []
      [(.str "Aries", .obj [(.str "name", .str "Aries"),
        (.str "element", .str "Fire"), (.str "modality", .str "Cardinal")])]
      rfl rfl (by simp) rfl).1⟩

theorem processElement_wf (t : SymTable) (e : JValue) (hinv : TableInv t)
    (hwf : WFEntry "name" e = true) :
    (entryMissing "name" e = true ∧
      processElement t e = .error (.keyError (.str "name"))) ∨
    (entryMissing "name" e = false ∧
      ∃ t', processElement t e = .ok t' ∧ TableInv t') := by
  cases e with
  | obj ekvs =>
      cases hf : dictFind? ekvs (.str "name") with
      | none =>
          left
          refine ⟨by simp [entryMissing, hf], ?_⟩
          unfold processElement
          simp [jIndex, JValue.hashable, hf, exbind_error]
      | some v =>
          unfold WFEntry at hwf
          simp only at hwf
          rw [hf] at hwf
          cases v with
          | str ns =>
              right
              refine ⟨by simp [entryMissing, hf], ?_⟩
              have hstep : processElement t (.obj ekvs) =
                  .ok (dictSet t (.str ns) (.obj ekvs)) := by
                unfold processElement
                simp [jIndex, JValue.hashable, hf, pySetItem, exbind_ok]
              exact ⟨_, hstep, processElement_inv hstep hinv⟩
          | null => simp at hwf
          | bool b => simp at hwf
          | num n => simp at hwf
          | arr xs => simp at hwf
          | obj kvs => simp at hwf
  | null => simp [WFEntry] at hwf
  | bool b => simp [WFEntry] at hwf
  | num n => simp [WFEntry] at hwf
  | str s => simp [WFEntry] at hwf
  | arr xs => simp [WFEntry] at hwf

theorem processModality_wf (t : SymTable) (e : JValue) (hinv : TableInv t)
    (hwf : WFEntry "modalityType" e = true) :
    (entryMissing "modalityType" e = true ∧
      processModality t e = .error (.keyError (.str "modalityType"))) ∨
    (entryMissing "modalityType" e = false ∧
      ∃ t', processModality t e = .ok t' ∧ TableInv t') := by
  cases e with
  | obj ekvs =>
      cases hf : dictFind? ekvs (.str "modalityType") with
      | none =>
          left
          refine ⟨by simp [entryMissing, hf], ?_⟩
          unfold processModality
          simp [jIndex, JValue.hashable, hf, exbind_error]
      | some v =>
          unfold WFEntry at hwf
          simp only at hwf
          rw [hf] at hwf
          cases v with
          | str ns =>
              right
              refine ⟨by simp [entryMissing, hf], ?_⟩
              have hstep : processModality t (.obj ekvs) =
                  .ok (dictSet t (.str ns) (.obj ekvs)) := by
                unfold processModality
                simp [jIndex, JValue.hashable, hf, pySetItem, exbind_ok]
              exact ⟨_, hstep, processModality_inv hstep hinv⟩
          | null => simp at hwf
          | bool b => simp at hwf
          | num n => simp at hwf
          | arr xs => simp at hwf
          | obj kvs => simp at hwf
  | null => simp [WFEntry] at hwf
  | bool b => simp [WFEntry] at hwf
  | num n => simp [WFEntry] at hwf
  | str s => simp [WFEntry] at hwf
  | arr xs => simp [WFEntry] at hwf

theorem processSign_wf (t : SymTable) (e : JValue) (hinv : TableInv t)
    (hwf : WFEntry "name" e = true) :
    (entryMissing "name" e = true ∧
      processSign t e = .error (.keyError (.str "name"))) ∨
    (entryMissing "name" e = false ∧
      ∃ t', processSign t e = .ok t' ∧ TableInv t') := by
  obtain ⟨hzs, hvals⟩ := hinv
  obtain ⟨zd, hzd⟩ := Option.isSome_iff_exists.mp hzs
  obtain ⟨zk, rfl⟩ := hvals _ (dictFind?_mem hzd)
  have hji : jIndex (.obj t) (.str "zodiac") = .ok (.obj zk) := by
    simp [jIndex, JValue.hashable, hzd]
  cases e with
  | obj ekvs =>
      cases hf : dictFind? ekvs (.str "name") with
      | none =>
          left
          refine ⟨by simp [entryMissing, hf], ?_⟩
          unfold processSign
          rw [hji, exbind_ok]
          simp [jIndex, JValue.hashable, hf, exbind_error]
      | some v =>
          unfold WFEntry at hwf
          simp only at hwf
          rw [hf] at hwf
          cases v with
          | str ns =>
              right
              refine ⟨by simp [entryMissing, hf], ?_⟩
              have hstep : processSign t (.obj ekvs) =
                  .ok (dictSet t (.str "zodiac")
                    (.obj (dictSet zk (.str ns) (.obj ekvs)))) := by
                unfold processSign
                rw [hji, exbind_ok]
                simp [jIndex, JValue.hashable, hf, pySetItem, exbind_ok]
              refine ⟨_, hstep, ?_⟩
              exact processSign_inv hstep ⟨hzs, hvals⟩
          | null => simp at hwf
          | bool b => simp at hwf
          | num n => simp at hwf
          | arr xs => simp at hwf
          | obj kvs => simp at hwf
  | null => simp [WFEntry] at hwf
  | bool b => simp [WFEntry] at hwf
  | num n => simp [WFEntry] at hwf
  | str s => simp [WFEntry] at hwf
  | arr xs => simp [WFEntry] at hwf

theorem fold_wf (field : String)
    (proc : SymTable → JValue → Except PyError SymTable)
    (hstep : ∀ t e, TableInv t → WFEntry field e = true →
      ((entryMissing field e = true ∧
        proc t e = .error (.keyError (.str field))) ∨
       (entryMissing field e = false ∧
        ∃ t', proc t e = .ok t' ∧ TableInv t'))) :
    ∀ (es : List JValue) (t : SymTable), TableInv t →
      es.all (WFEntry field) = true →
      ((es.any (entryMissing field) = true ∧
        foldE proc t es = .error (.keyError (.str field))) ∨
       (es.any (entryMissing field) = false ∧
        ∃ t', foldE proc t es = .ok t' ∧ TableInv t'))
  | [], t, hinv, _ => by
      right
      exact ⟨by simp, t, by simp [foldE], hinv⟩
  | e :: es, t, hinv, hall => by
      have hwe : WFEntry field e = true := by
        simp [List.all_cons] at hall
        exact hall.1
      have hwes : es.all (WFEntry field) = true := by
        simp [List.all_cons] at hall
        simpa using hall.2
      rcases hstep t e hinv hwe with ⟨hm, herr⟩ | ⟨hm, t1, hok1, hinv1⟩
      · left
        refine ⟨by simp [List.any_cons, hm], ?_⟩
        unfold foldE
        rw [herr]
      · rcases fold_wf field proc hstep es t1 hinv1 hwes with
          ⟨ha, herr⟩ | ⟨ha, t2, hok2, hinv2⟩
        · left
          refine ⟨by simp [List.any_cons, ha], ?_⟩
          unfold foldE
          rw [hok1]
          exact herr
        · right
          refine ⟨by simp [List.any_cons, hm, ha], t2, ?_, hinv2⟩
          unfold foldE
          rw [hok1]
          exact hok2

theorem stage_wf (t : SymTable) (kvs : List (JValue × JValue))
    (listField field tyName : String) (gt : JValue)
    (proc : SymTable → JValue → Except PyError SymTable)
    (hstep : ∀ t e, TableInv t → WFEntry field e = true →
      ((entryMissing field e = true ∧
        proc t e = .error (.keyError (.str field))) ∨
       (entryMissing field e = false ∧
        ∃ t', proc t e = .ok t' ∧ TableInv t')))
    (hinv : TableInv t)
    (hwfl : WFEntryList kvs listField field = true) :
    ((gt = .str tyName ∧ entryLacks kvs listField field = true) ∧
      (if gt = .str tyName then do
        let elems ← pyGetD (.obj kvs) (.str listField) (.arr [])
        let items ← pyIter elems
        foldE proc t items
      else .ok t) = .error (.keyError (.str field))) ∨
    (¬(gt = .str tyName ∧ entryLacks kvs listField field = true) ∧
      ∃ t', (if gt = .str tyName then do
        let elems ← pyGetD (.obj kvs) (.str listField) (.arr [])
        let items ← pyIter elems
        foldE proc t items
      else .ok t) = .ok t' ∧ TableInv t') := by
  by_cases hgt : gt = .str tyName
  · rw [if_pos hgt]
    rw [pyGetD_obj_ok, exbind_ok]
    cases hlf : dictFind? kvs (.str listField) with
    | none =>
        right
        refine ⟨fun hc => by simp [entryLacks, hlf] at hc, t, ?_, hinv⟩
        simp [pyIter, exbind_ok, foldE]
    | some v =>
        unfold WFEntryList at hwfl
        rw [hlf] at hwfl
        cases v with
        | arr es =>
            simp only [Option.getD_some, pyIter, exbind_ok]
            rcases fold_wf field proc hstep es t hinv hwfl with
              ⟨ha, herr⟩ | ⟨ha, t', hok, hinv'⟩
            · left
              exact ⟨⟨hgt, by simp [entryLacks, hlf, ha]⟩, herr⟩
            · right
              refine ⟨fun hc => ?_, t', hok, hinv'⟩
              rw [entryLacks, hlf] at hc
              simp only at hc
              rw [hc.2] at ha
              exact absurd ha (by simp)
        | null => simp at hwfl
        | bool b => simp at hwfl
        | num n => simp at hwfl
        | str s => simp at hwfl
        | obj o => simp at hwfl
  · right
    refine ⟨fun hc => hgt hc.1, t, ?_, hinv⟩
    rw [if_neg hgt]

theorem processGroup_wf (t : SymTable) (g : JValue)
    (hinv : TableInv t) (hwf : WFGroup g = true) :
    (groupOffends g = true ∧ ∃ k, processGroup t g = .error (.keyError k)) ∨
    (groupOffends g = false ∧
      ∃ t', processGroup t g = .ok t' ∧ TableInv t') := by
  cases g with
  | obj kvs =>
      unfold WFGroup at hwf
      simp only [Bool.and_eq_true] at hwf
      obtain ⟨⟨hw1, hw2⟩, hw3⟩ := hwf
      unfold processGroup
      rw [pyGetD_obj_ok, exbind_ok]
      have hoff : groupOffends (.obj kvs) =
          ((decide (((dictFind? kvs (.str "@type")).getD .null) =
              .str "ElementGroup") && entryLacks kvs "hasElement" "name") ||
           (decide (((dictFind? kvs (.str "@type")).getD .null) =
              .str "ModalityGroup") && entryLacks kvs "hasModality" "modalityType") ||
           (decide (((dictFind? kvs (.str "@type")).getD .null) =
              .str "AstrologicalIntegration") && entryLacks kvs "hasZodiacSign" "name")) := rfl
      rcases stage_wf t kvs "hasElement" "name" "ElementGroup"
          ((dictFind? kvs (.str "@type")).getD .null) processElement
          (fun a b hai hbi => processElement_wf a b hai hbi) hinv hw1 with
        ⟨⟨hgt1, hl1⟩, herr1⟩ | ⟨hno1, t1, hok1, hinv1⟩
      · left
        constructor
        · rw [hoff]
          simp [hgt1, hl1]
        · refine ⟨.str "name", ?_⟩
          show (groupElements t (.obj kvs)
            ((dictFind? kvs (.str "@type")).getD .null) >>= fun s1 =>
              groupModalities s1 (.obj kvs)
                ((dictFind? kvs (.str "@type")).getD .null) >>= fun s2 =>
              groupSigns s2 (.obj kvs)
                ((dictFind? kvs (.str "@type")).getD .null) >>= fun s3 =>
              Except.ok s3) = Except.error (PyError.keyError (.str "name"))
          rw [show groupElements t (.obj kvs)
              ((dictFind? kvs (.str "@type")).getD .null) =
              .error (.keyError (.str "name")) from herr1, exbind_error]
      · rcases stage_wf t1 kvs "hasModality" "modalityType" "ModalityGroup"
            ((dictFind? kvs (.str "@type")).getD .null) processModality
            (fun a b hai hbi => processModality_wf a b hai hbi) hinv1 hw2 with
          ⟨⟨hgt2, hl2⟩, herr2⟩ | ⟨hno2, t2, hok2, hinv2⟩
        · left
          constructor
          · rw [hoff]
            simp [hgt2, hl2]
          · refine ⟨.str "modalityType", ?_⟩
            rw [show groupElements t (.obj kvs)
                ((dictFind? kvs (.str "@type")).getD .null) = .ok t1 from hok1,
              exbind_ok]
            rw [show groupModalities t1 (.obj kvs)
                ((dictFind? kvs (.str "@type")).getD .null) =
                .error (.keyError (.str "modalityType")) from herr2, exbind_error]
        · rcases stage_wf t2 kvs "hasZodiacSign" "name" "AstrologicalIntegration"
              ((dictFind? kvs (.str "@type")).getD .null) processSign
              (fun a b hai hbi => processSign_wf a b hai hbi) hinv2 hw3 with
            ⟨⟨hgt3, hl3⟩, herr3⟩ | ⟨hno3, t3, hok3, hinv3⟩
          · left
            constructor
            · rw [hoff]
              simp [hgt3, hl3]
            · refine ⟨.str "name", ?_⟩
              rw [show groupElements t (.obj kvs)
                  ((dictFind? kvs (.str "@type")).getD .null) = .ok t1 from hok1,
                exbind_ok]
              rw [show groupModalities t1 (.obj kvs)
                  ((dictFind? kvs (.str "@type")).getD .null) = .ok t2 from hok2,
                exbind_ok]
              rw [show groupSigns t2 (.obj kvs)
                  ((dictFind? kvs (.str "@type")).getD .null) =
                  .error (.keyError (.str "name")) from herr3, exbind_error]
          · right
            constructor
            · rw [hoff]
              simp only [Bool.or_eq_false_iff, Bool.and_eq_false_iff]
              refine ⟨⟨?_, ?_⟩, ?_⟩
              · by_cases h1 : ((dictFind? kvs (.str "@type")).getD .null) =
                    .str "ElementGroup"
                · right
                  by_cases h2 : entryLacks kvs "hasElement" "name" = true
                  · exact absurd ⟨h1, h2⟩ hno1
                  · simpa using h2
                · left
                  simpa using h1
              · by_cases h1 : ((dictFind? kvs (.str "@type")).getD .null) =
                    .str "ModalityGroup"
                · right
                  by_cases h2 : entryLacks kvs "hasModality" "modalityType" = true
                  · exact absurd ⟨h1, h2⟩ hno2
                  · simpa using h2
                · left
                  simpa using h1
              · by_cases h1 : ((dictFind? kvs (.str "@type")).getD .null) =
                    .str "AstrologicalIntegration"
                · right
                  by_cases h2 : entryLacks kvs "hasZodiacSign" "name" = true
                  · exact absurd ⟨h1, h2⟩ hno3
                  · simpa using h2
                · left
                  simpa using h1
            · refine ⟨t3, ?_, hinv3⟩
              rw [show groupElements t (.obj kvs)
                  ((dictFind? kvs (.str "@type")).getD .null) = .ok t1 from hok1,
                exbind_ok]
              rw [show groupModalities t1 (.obj kvs)
                  ((dictFind? kvs (.str "@type")).getD .null) = .ok t2 from hok2,
                exbind_ok]
              rw [show groupSigns t2 (.obj kvs)
                  ((dictFind? kvs (.str "@type")).getD .null) = .ok t3 from hok3,
                exbind_ok]
  | null => simp [WFGroup] at hwf
  | bool b => simp [WFGroup] at hwf
  | num n => simp [WFGroup] at hwf
  | str s => simp [WFGroup] at hwf
  | arr xs => simp [WFGroup] at hwf

theorem fold_groups_wf :
    ∀ (gs : List JValue) (t : SymTable), TableInv t →
      gs.all WFGroup = true →
      ((gs.any groupOffends = true ∧
        ∃ k, foldE processGroup t gs = .error (.keyError k)) ∨
       (gs.any groupOffends = false ∧
        ∃ t', foldE processGroup t gs = .ok t' ∧ TableInv t'))
  | [], t, hinv, _ => by
      right
      exact ⟨by simp, t, by simp [foldE], hinv⟩
  | g :: gs, t, hinv, hall => by
      have hw1 : WFGroup g = true := by
        simp [List.all_cons] at hall
        exact hall.1
      have hws : gs.all WFGroup = true := by
        simp [List.all_cons] at hall
        simpa using hall.2
      rcases processGroup_wf t g hinv hw1 with
        ⟨hoff, k, herr⟩ | ⟨hoff, t1, hok1, hinv1⟩
      · left
        refine ⟨by simp [List.any_cons, hoff], k, ?_⟩
        unfold foldE
        rw [herr]
      · rcases fold_groups_wf gs t1 hinv1 hws with
          ⟨ha, k, herr⟩ | ⟨ha, t2, hok2, hinv2⟩
        · left
          refine ⟨by simp [List.any_cons, ha], k, ?_⟩
          unfold foldE
          rw [hok1]
          exact herr
        · right
          refine ⟨by simp [List.any_cons, hoff, ha], t2, ?_, hinv2⟩
          unfold foldE
          rw [hok1]
          exact hok2

theorem find_section_loop_mem {name : String} :
    ∀ {items : List JValue} {s : JValue},
      find_section_loop name items = .ok (some s) → s ∈ items
  | [], s, h => by simp [find_section_loop] at h
  | x :: xs, s, h => by
      unfold find_section_loop at h
      cases hn : pyGetD x (.str "name") .null with
      | error er => rw [hn, exbind_error] at h; exact absurd h (by simp)
      | ok n =>
          rw [hn, exbind_ok] at h
          split at h
          · cases Option.some.inj (Except.ok.inj h)
            exact List.mem_cons_self _ _
          · exact List.mem_cons_of_mem _ (find_section_loop_mem h)

/-- C10: for structurally valid parsed documents, the extractor does not
degrade past a missing required field: whenever the framework section holds
an `ElementGroup` entry lacking "name", a `ModalityGroup` entry lacking
"modalityType", or an `AstrologicalIntegration` sign entry lacking "name",
`_extract_symbols` raises a `KeyError` instead of skipping the entry. -/
theorem claim_C10 (doc : JValue)
    (hwf : WFDoc doc = true) (hoff : docOffends doc = true) :
    isKeyError (extract_symbols doc) = true := by
  unfold docOffends at hoff
  cases hfs : find_section doc "Universal Symbology Framework" with
  | error er => rw [hfs] at hoff; simp at hoff
  | ok ofw =>
      rw [hfs] at hoff
      cases ofw with
      | none => simp at hoff
      | some fw =>
          cases fw with
          | obj fkvs =>
              simp only at hoff
              cases hcc : dictFind? fkvs (.str "hasConcept") with
              | none => rw [hcc] at hoff; simp at hoff
              | some cv =>
                  rw [hcc] at hoff
                  cases cv with
                  | arr gs =>
                      simp only at hoff
                      have hall : gs.all WFGroup = true := by
                        unfold WFDoc at hwf
                        cases doc with
                        | obj dkvs =>
                            simp only at hwf
                            cases hhs : dictFind? dkvs (.str "hasSection") with
                            | none =>
                                unfold find_section at hfs
                                rw [pyGetD_obj_ok, hhs, exbind_ok] at hfs
                                simp [pyIter, exbind_ok, find_section_loop] at hfs
                            | some sv =>
                                rw [hhs] at hwf
                                cases sv with
                                | arr sections =>
                                    unfold find_section at hfs
                                    rw [pyGetD_obj_ok, hhs, exbind_ok] at hfs
                                    simp only [Option.getD_some, pyIter,
                                      exbind_ok] at hfs
                                    have hmem := find_section_loop_mem hfs
                                    have hsec := (List.all_eq_true.mp hwf) _ hmem
                                    simp only at hsec
                                    rw [hcc] at hsec
                                    simpa using hsec
                                | null => simp at hwf
                                | bool b => simp at hwf
                                | num n => simp at hwf
                                | str s => simp at hwf
                                | obj o => simp at hwf
                        | null => simp at hwf
                        | bool b => simp at hwf
                        | num n => simp at hwf
                        | str s => simp at hwf
                        | arr xs => simp at hwf
                      unfold extract_symbols
                      rw [hfs, exbind_ok]
                      simp only
                      rw [pyGetD_obj_ok, hcc, exbind_ok]
                      simp only [Option.getD_some, pyIter, exbind_ok]
                      rcases fold_groups_wf gs [(.str "zodiac", .obj [])]
                          init_inv hall with
                        ⟨_, k, herr⟩ | ⟨ha, _, _, _⟩
                      · rw [herr, exbind_error]
                        rfl
                      · rw [hoff] at ha
                        exact absurd ha (by simp)
                  | null => simp at hoff
                  | bool b => simp at hoff
                  | num n => simp at hoff
                  | str s => simp at hoff
                  | obj o => simp at hoff
          | null => simp at hoff
          | bool b => simp at hoff
          | num n => simp at hoff
          | str s => simp at hoff
          | arr xs => simp at hoff

theorem claim_C10_witness :
    WFDoc offDoc = true ∧ docOffends offDoc = true ∧
    isKeyError (extract_symbols offDoc) = true :=
  ⟨rfl, rfl, claim_C10 offDoc rfl rfl⟩
